import Mathlib

/-!
# A shallow embedding of the `obsidian-tiktoker` batch ingestion pipeline

This file embeds the core of the TikToker Obsidian plugin (`main.ts`) in
Lean 4 and proves, or refutes, the testable properties stated in its
specification.  The embedding follows the TypeScript source function by
function:

* URL discovery (`extractTikTokUrls`, `isTikTokUrl`),
* hashtag extraction (`extractHashtags`),
* redirect expansion (`expandUrl`),
* metadata resolution (`fetchTikTokData`, `fetchTikTokDataMobile`,
  `handleSlideshowUrl`, `handlePrivateVideo`, `detectPrivateVideo`,
  `extractTikTokPostedDate`),
* templating (`generateFileName`, `generateNoteTitle`, `generateNoteContent`),
* note writing (`createTikTokNote`) over an explicit vault state,
* the clipboard entry point (`processTikTokFromClipboard`,
  `shouldShowBulkModal`),
* the batch orchestrator loop (`processBulkTikToks`).

Conventions of the embedding:

* JavaScript strings are Lean `String`s; character-level work happens on
  `String.data`.
* Asynchronous network calls are modelled by explicit outcome oracles
  (`Except`/`Option` values passed in as parameters); a timeout, abort or
  non-2xx response is an `error`/`none` outcome.
* The JavaScript runtime's number-to-decimal-string conversion and
  `Date.toISOString` are modelled by executable Lean functions
  (`natDec`, `dateStr`); unix times are `Nat` seconds (the plugin never
  manipulates pre-1970 times).
* Loops whose termination rests on runtime facts are given explicit fuel;
  where the source loop provably terminates the fuel is discharged by a
  lemma, and where it does not the fuel makes the divergence provable.
-/

/-! ## String and character helpers (models of the JS operations used) -/

/-- Membership of the JS regex class `\w` = `[A-Za-z0-9_]`. -/
def isWordChar (c : Char) : Bool :=
  (('a' ≤ c && c ≤ 'z') || ('A' ≤ c && c ≤ 'Z') || ('0' ≤ c && c ≤ '9') || c = '_')

/-- Membership of the JS regex class `\s` (the ASCII part actually exercised
by the plugin's inputs: space, tab, newline, carriage return, form feed,
vertical tab). -/
def isSpaceChar (c : Char) : Bool :=
  (c = ' ' || c = '\t' || c = '\n' || c = '\r' || c = '\x0c' || c = '\x0b')

/-- Model of `String.prototype.toLowerCase` via `Char.toLower`
(agrees with JS on the ASCII range, which is all the plugin compares). -/
def toLowerStr (s : String) : String :=
  ⟨s.data.map Char.toLower⟩

/-- One step of substring search on character lists: does `pat` occur in `s`?
Model of `String.prototype.includes`. -/
def listContains (pat s : List Char) : Bool :=
  match s with
  | [] => pat.isEmpty
  | _ :: rest => pat.isPrefixOf s || listContains pat rest

/-- Model of `url.includes(pat)`. -/
def strContains (s pat : String) : Bool :=
  listContains pat.data s.data

/-- Model of JS `String.prototype.trim`: strip leading and trailing
whitespace. -/
def strTrim (s : String) : String :=
  ⟨(((s.data.dropWhile (fun c => isSpaceChar c)).reverse.dropWhile
      (fun c => isSpaceChar c)).reverse)⟩

/-- Character-list core of global literal replacement
(JS `s.replace(/pat/g, repl)` with `pat` a literal):
left-to-right, non-overlapping.  `fuel` bounds the number of consumed
characters; call sites use `s.length`, which suffices because every step
consumes at least one character. -/
def replaceAllGo (pat repl : List Char) : Nat → List Char → List Char
  | 0, s => s
  | _ + 1, [] => []
  | fuel + 1, c :: rest =>
    if ¬ pat.isEmpty ∧ pat.isPrefixOf (c :: rest) then
      repl ++ replaceAllGo pat repl fuel ((c :: rest).drop pat.length)
    else
      c :: replaceAllGo pat repl fuel rest

/-- Model of JS global literal replacement on strings. -/
def strReplaceAll (s pat repl : String) : String :=
  ⟨replaceAllGo pat.data repl.data s.data.length s.data⟩

/-! ## Decimal rendering (model of JS ToString on numbers)

`natDec` renders a `Nat` in decimal.  It is the embedding's model of the
implicit number-to-string conversions in template literals such as
`` `${fileName}-${counter}` ``.  `decVal` reads a digit list back; the
round-trip lemma gives injectivity, which the duplicate-suffix probe
analysis needs. -/

/-- The decimal digit characters. -/
def decDigit (d : Nat) : Char :=
  match d with
  | 0 => '0' | 1 => '1' | 2 => '2' | 3 => '3' | 4 => '4'
  | 5 => '5' | 6 => '6' | 7 => '7' | 8 => '8' | _ => '9'

/-- Big-endian decimal digit list of `n`; `fuel` bounds the recursion depth
(one step per digit, so `n + 1` is always enough). -/
def natDecGo : Nat → Nat → List Char
  | 0, _ => []
  | fuel + 1, n =>
    if n < 10 then [decDigit n]
    else natDecGo fuel (n / 10) ++ [decDigit (n % 10)]

/-- Decimal rendering of a natural number. -/
def natDec (n : Nat) : String :=
  ⟨natDecGo (n + 1) n⟩

/-- Value of a big-endian digit list. -/
def decVal (l : List Char) : Nat :=
  l.foldl (fun a c => 10 * a + (c.toNat - 48)) 0

theorem decVal_append (l : List Char) (c : Char) :
    decVal (l ++ [c]) = 10 * decVal l + (c.toNat - 48) := by
  simp [decVal, List.foldl_append]

theorem decVal_digit (d : Nat) (h : d < 10) :
    (decDigit d).toNat - 48 = d := by
  interval_cases d <;> rfl

theorem decVal_natDecGo (fuel n : Nat) (h : n < fuel) :
    decVal (natDecGo fuel n) = n := by
  induction fuel generalizing n with
  | zero => omega
  | succ fuel ih =>
    by_cases h10 : n < 10
    · simp [natDecGo, h10, decVal, decVal_digit n h10]
    · have hdiv : n / 10 < fuel := by
        have := Nat.div_lt_self (by omega : 0 < n) (by omega : 1 < 10)
        omega
      simp only [natDecGo, if_neg h10, decVal_append, ih (n / 10) hdiv]
      have hmod : n % 10 < 10 := Nat.mod_lt _ (by omega)
      rw [decVal_digit _ hmod]
      omega

/-- The decimal renderer is injective. -/
theorem natDec_injective : Function.Injective natDec := by
  intro a b hab
  have : natDecGo (a + 1) a = natDecGo (b + 1) b := congrArg String.data hab
  have ha := decVal_natDecGo (a + 1) a (Nat.lt_succ_self a)
  have hb := decVal_natDecGo (b + 1) b (Nat.lt_succ_self b)
  rw [this, hb] at ha
  omega

/-! ## Calendar dates (model of `new Date(ms).toISOString().split('T')[0]`)

The plugin renders every date through the JS runtime's
`Date.prototype.toISOString`, keeping only the `YYYY-MM-DD` prefix.  The
embedding models that conversion for non-negative unix times: split seconds
into days since 1970-01-01, walk whole years, then whole months.  The walk
is structurally recursive on a fuel that the callers discharge exactly
(`yearFromDays` consumes one fuel per year and at least 365 days per step,
so `days + 1` fuel always suffices -- see `yearFromDays_spec`). -/

/-- Gregorian leap-year test. -/
def isLeapYear (y : Nat) : Bool :=
  y % 4 == 0 && (y % 100 != 0 || y % 400 == 0)

/-- Number of days in year `y`. -/
def daysInYear (y : Nat) : Nat :=
  if isLeapYear y then 366 else 365

/-- Month lengths of year `y`, January first. -/
def monthLengths (y : Nat) : List Nat :=
  [31, if isLeapYear y then 29 else 28, 31, 30, 31, 30, 31, 31, 30, 31, 30, 31]

/-- Walk whole years starting at year `y`: returns the year containing day
`d` (counted from `y`-01-01) together with the day-of-year remainder. -/
def yearFromDays : Nat → Nat → Nat → Nat × Nat
  | 0, y, d => (y, d)
  | fuel + 1, y, d =>
    if d < daysInYear y then (y, d) else yearFromDays fuel (y + 1) (d - daysInYear y)

/-- Walk the month-length list: returns the (1-based via the accumulator)
month containing day-of-year `d` and the day-of-month remainder. -/
def monthFromDoy : List Nat → Nat → Nat → Nat × Nat
  | [], m, d => (m, d)
  | len :: rest, m, d =>
    if d < len then (m, d) else monthFromDoy rest (m + 1) (d - len)

/-- Civil date `(year, month, day)` of a non-negative unix time in seconds. -/
def civilFromUnix (ts : Nat) : Nat × Nat × Nat :=
  let days := ts / 86400
  let yd := yearFromDays (days + 1) 1970 days
  let md := monthFromDoy (monthLengths yd.1) 1 yd.2
  (yd.1, md.1, md.2 + 1)

/-- Two-digit zero padding, as `toISOString` renders months and days. -/
def pad2 (n : Nat) : String :=
  if n < 10 then "0" ++ natDec n else natDec n

/-- The `YYYY-MM-DD` prefix of `toISOString` for a unix time in seconds:
the model of `new Date(ts * 1000).toISOString().split('T')[0]`. -/
def dateStr (ts : Nat) : String :=
  let c := civilFromUnix ts
  natDec c.1 ++ "-" ++ pad2 c.2.1 ++ "-" ++ pad2 c.2.2

/-- Decidable well-formedness of an ISO calendar date string: exactly
`YYYY-MM-DD` with a real month and a real day of that month. -/
def isValidISODate (s : String) : Bool :=
  match s.data with
  | [y1, y2, y3, y4, h1, m1, m2, h2, d1, d2] =>
    let digit := fun c : Char => ('0' ≤ c && c ≤ '9')
    let val2 := fun a b : Char => 10 * (a.toNat - 48) + (b.toNat - 48)
    digit y1 && digit y2 && digit y3 && digit y4 && h1 = '-' && h2 = '-' &&
    digit m1 && digit m2 && digit d1 && digit d2 &&
    (let y := decVal [y1, y2, y3, y4]
     let m := val2 m1 m2
     let d := val2 d1 d2
     1 ≤ m && m ≤ 12 && 1 ≤ d &&
     d ≤ (monthLengths y).getD (m - 1) 0)
  | _ => false

theorem yearFromDays_spec (fuel y d : Nat) (h : d < fuel) :
    (yearFromDays fuel y d).2 < daysInYear (yearFromDays fuel y d).1 ∧
    y ≤ (yearFromDays fuel y d).1 ∧
    (yearFromDays fuel y d).1 ≤ y + d / 365 := by
  induction fuel generalizing y d with
  | zero => omega
  | succ fuel ih =>
    by_cases hd : d < daysInYear y
    · simp only [yearFromDays, if_pos hd]
      exact ⟨hd, Nat.le_refl _, Nat.le_add_right _ _⟩
    · have h365 : 365 ≤ daysInYear y := by
        unfold daysInYear; split <;> omega
      have hlt : d - daysInYear y < fuel := by omega
      have hrec := ih (y + 1) (d - daysInYear y) hlt
      simp only [yearFromDays, if_neg hd]
      refine ⟨hrec.1, by omega, ?_⟩
      have hub := hrec.2.2
      have hstep : (d - daysInYear y) / 365 + 1 ≤ d / 365 := by
        have hle : (d - daysInYear y) + 365 ≤ d := by omega
        have h1 : ((d - daysInYear y) + 365) / 365 ≤ d / 365 :=
          Nat.div_le_div_right hle
        rw [Nat.add_div_right _ (by omega)] at h1
        omega
      omega

theorem monthFromDoy_spec (l : List Nat) (m d : Nat) (h : d < l.sum) :
    m ≤ (monthFromDoy l m d).1 ∧
    (monthFromDoy l m d).1 ≤ m + l.length - 1 ∧
    (monthFromDoy l m d).2 < l.getD ((monthFromDoy l m d).1 - m) 0 := by
  induction l generalizing m d with
  | nil => simp at h
  | cons len rest ih =>
    by_cases hd : d < len
    · simp only [monthFromDoy, if_pos hd, Nat.sub_self, List.getD_cons_zero,
        List.length_cons]
      exact ⟨Nat.le_refl _, by omega, hd⟩
    · have hsum : d - len < rest.sum := by
        simp only [List.sum_cons] at h; omega
      have hrec := ih (m + 1) (d - len) hsum
      simp only [monthFromDoy, if_neg hd]
      refine ⟨by omega, ?_, ?_⟩
      · have := hrec.2.1
        simp only [List.length_cons]
        omega
      · have hmono := hrec.1
        have hgd := hrec.2.2
        have hidx : (monthFromDoy rest (m + 1) (d - len)).1 - m =
            ((monthFromDoy rest (m + 1) (d - len)).1 - (m + 1)) + 1 := by omega
        rw [hidx]
        simpa using hgd

theorem monthLengths_sum (y : Nat) : (monthLengths y).sum = daysInYear y := by
  unfold monthLengths daysInYear
  split <;> simp

theorem monthLengths_length (y : Nat) : (monthLengths y).length = 12 := by
  unfold monthLengths; split <;> rfl

theorem natDecGo_eq (fuel fuel' n : Nat) (h : n < fuel) (h' : n < fuel') :
    natDecGo fuel n = natDecGo fuel' n := by
  induction fuel generalizing fuel' n with
  | zero => omega
  | succ fuel ih =>
    match fuel', h' with
    | fuel' + 1, h' =>
      by_cases h10 : n < 10
      · simp [natDecGo, h10]
      · have hdiv : n / 10 < n := Nat.div_lt_self (by omega) (by omega)
        simp only [natDecGo, if_neg h10]
        rw [ih fuel' (n / 10) (by omega) (by omega)]

/-- Unfolding equation for `natDec` at the level of character data. -/
theorem natDec_data (n : Nat) :
    (natDec n).data =
      if n < 10 then [decDigit n]
      else (natDec (n / 10)).data ++ [decDigit (n % 10)] := by
  show natDecGo (n + 1) n = _
  by_cases h : n < 10
  · simp [natDecGo, h]
  · have hdiv : n / 10 < n := Nat.div_lt_self (by omega) (by omega)
    simp only [natDecGo, if_neg h, if_neg h]
    rw [natDecGo_eq n (n / 10 + 1) (n / 10) (by omega) (by omega)]
    rfl

theorem decDigit_bounds (d : Nat) : '0' ≤ decDigit d ∧ decDigit d ≤ '9' := by
  unfold decDigit
  split <;> exact ⟨by decide, by decide⟩

theorem natDec_data_two (n : Nat) (h1 : 10 ≤ n) (h2 : n < 100) :
    (natDec n).data = [decDigit (n / 10), decDigit (n % 10)] := by
  rw [natDec_data, if_neg (by omega)]
  rw [natDec_data, if_pos (by omega)]
  rfl

theorem natDec_data_four (n : Nat) (h1 : 1000 ≤ n) (h2 : n < 10000) :
    (natDec n).data =
      [decDigit (n / 1000), decDigit (n / 100 % 10),
       decDigit (n / 10 % 10), decDigit (n % 10)] := by
  rw [natDec_data, if_neg (by omega)]
  rw [natDec_data, if_neg (by omega : ¬ n / 10 < 10)]
  rw [natDec_data, if_neg (by omega : ¬ n / 10 / 10 < 10)]
  rw [natDec_data, if_pos (by omega : n / 10 / 10 / 10 < 10)]
  simp [Nat.div_div_eq_div_mul]

theorem pad2_data (n : Nat) (h : n < 100) :
    (pad2 n).data =
      if n < 10 then ['0', decDigit n]
      else [decDigit (n / 10), decDigit (n % 10)] := by
  by_cases h10 : n < 10
  · simp only [pad2, if_pos h10]
    show ('0' :: (natDec n).data) = _
    rw [natDec_data, if_pos h10]
  · simp only [pad2, if_neg h10, if_neg h10]
    exact natDec_data_two n (by omega) h

theorem monthLengths_getD_le (y i : Nat) : (monthLengths y).getD i 0 ≤ 31 := by
  unfold monthLengths
  split <;>
    rcases i with _|_|_|_|_|_|_|_|_|_|_|_|i <;>
      simp [List.getD]

/-- Digit-character test used by `isValidISODate`, satisfied by `decDigit`. -/
theorem decDigit_isDigit (d : Nat) :
    ('0' ≤ decDigit d && decDigit d ≤ '9') = true := by
  have := decDigit_bounds d
  simp [this.1, this.2]

theorem isValidISODate_congr (s : String) (l : List Char) (h : s.data = l) :
    isValidISODate s = isValidISODate ⟨l⟩ := by
  cases s with
  | mk data => cases h; rfl

/-- The two rendered characters of `pad2 n`, with their digit bounds and
their combined value. -/
theorem pad2_val (n : Nat) (h : n < 100) :
    ∃ a b : Char, (pad2 n).data = [a, b] ∧
      ('0' ≤ a ∧ a ≤ '9') ∧ ('0' ≤ b ∧ b ≤ '9') ∧
      10 * (a.toNat - 48) + (b.toNat - 48) = n := by
  by_cases h10 : n < 10
  · refine ⟨'0', decDigit n, ?_, ⟨by decide, by decide⟩, decDigit_bounds n, ?_⟩
    · rw [pad2_data n h, if_pos h10]
    · rw [decVal_digit n h10]
      have h0 : ('0' : Char).toNat = 48 := rfl
      rw [h0]
      omega
  · refine ⟨decDigit (n / 10), decDigit (n % 10), ?_, decDigit_bounds _,
      decDigit_bounds _, ?_⟩
    · rw [pad2_data n h, if_neg h10]
    · rw [decVal_digit (n / 10) (by omega), decVal_digit (n % 10) (by omega)]
      omega

/-- The four rendered characters of a four-digit year, with digit bounds and
their combined value. -/
theorem natDec4_val (y : Nat) (hy1 : 1000 ≤ y) (hy2 : y < 10000) :
    ∃ a b c d : Char, (natDec y).data = [a, b, c, d] ∧
      ('0' ≤ a ∧ a ≤ '9') ∧ ('0' ≤ b ∧ b ≤ '9') ∧
      ('0' ≤ c ∧ c ≤ '9') ∧ ('0' ≤ d ∧ d ≤ '9') ∧
      decVal [a, b, c, d] = y := by
  refine ⟨decDigit (y / 1000), decDigit (y / 100 % 10), decDigit (y / 10 % 10),
    decDigit (y % 10), natDec_data_four y hy1 hy2, decDigit_bounds _,
    decDigit_bounds _, decDigit_bounds _, decDigit_bounds _, ?_⟩
  have := decVal_natDecGo (y + 1) y (Nat.lt_succ_self _)
  have h4 : (natDec y).data = [decDigit (y / 1000), decDigit (y / 100 % 10),
      decDigit (y / 10 % 10), decDigit (y % 10)] := natDec_data_four y hy1 hy2
  rw [show natDecGo (y + 1) y = (natDec y).data from rfl, h4] at this
  exact this

theorem isValidISODate_of_parts (y m d : Nat) (hy1 : 1000 ≤ y) (hy2 : y < 10000)
    (hm1 : 1 ≤ m) (hm2 : m ≤ 12) (hd1 : 1 ≤ d)
    (hd2 : d ≤ (monthLengths y).getD (m - 1) 0) :
    isValidISODate (natDec y ++ "-" ++ pad2 m ++ "-" ++ pad2 d) = true := by
  have hd31 : d ≤ 31 := le_trans hd2 (monthLengths_getD_le y (m - 1))
  obtain ⟨a, b, c, e, hy4, ha, hb, hc, he, hyval⟩ := natDec4_val y hy1 hy2
  obtain ⟨m1, m2, hmp, hm1d, hm2d, hmval⟩ := pad2_val m (by omega)
  obtain ⟨d1, d2, hdp, hd1d, hd2d, hdval⟩ := pad2_val d (by omega)
  have hdata : (natDec y ++ "-" ++ pad2 m ++ "-" ++ pad2 d).data =
      [a, b, c, e, '-', m1, m2, '-', d1, d2] := by
    have : (natDec y ++ "-" ++ pad2 m ++ "-" ++ pad2 d).data =
        (natDec y).data ++ '-' :: ((pad2 m).data ++ '-' :: (pad2 d).data) := by
      simp [String.data_append]
    rw [this, hy4, hmp, hdp]
    rfl
  rw [isValidISODate_congr _ _ hdata]
  simp only [isValidISODate, Bool.and_eq_true, decide_eq_true_eq]
  rw [hyval, hmval, hdval]
  refine ⟨?_, ⟨⟨hm1, hm2⟩, hd1⟩, hd2⟩
  repeat' apply And.intro
  all_goals
    first
    | rfl
    | exact ha.1 | exact ha.2 | exact hb.1 | exact hb.2
    | exact hc.1 | exact hc.2 | exact he.1 | exact he.2
    | exact hm1d.1 | exact hm1d.2 | exact hm2d.1 | exact hm2d.2
    | exact hd1d.1 | exact hd1d.2 | exact hd2d.1 | exact hd2d.2
    | trivial

/-- Every `YYYY-MM-DD` string the date model produces for a time before the
year 9898 is a well-formed ISO calendar date. -/
theorem dateStr_valid (ts : Nat) (h : ts < 250000000000) :
    isValidISODate (dateStr ts) = true := by
  have hdays : ts / 86400 ≤ 2893518 := by omega
  have hyd := yearFromDays_spec (ts / 86400 + 1) 1970 (ts / 86400)
    (Nat.lt_succ_self _)
  set yd := yearFromDays (ts / 86400 + 1) 1970 (ts / 86400) with hyddef
  have hy9999 : yd.1 < 10000 := by
    have hub := hyd.2.2
    have : ts / 86400 / 365 ≤ 7927 := by omega
    omega
  have hdoy : yd.2 < (monthLengths yd.1).sum := by
    rw [monthLengths_sum]; exact hyd.1
  have hmd := monthFromDoy_spec (monthLengths yd.1) 1 yd.2 hdoy
  set md := monthFromDoy (monthLengths yd.1) 1 yd.2 with hmddef
  have hm12 : md.1 ≤ 12 := by
    have := hmd.2.1
    rw [monthLengths_length] at this
    omega
  have hds : dateStr ts = natDec yd.1 ++ "-" ++ pad2 md.1 ++ "-" ++ pad2 (md.2 + 1) := by
    unfold dateStr civilFromUnix
    dsimp only
  rw [hds]
  exact isValidISODate_of_parts yd.1 md.1 (md.2 + 1)
    (by have := hyd.2.1; omega) hy9999 hmd.1 hm12 (by omega)
    (by have := hmd.2.2; omega)

/-! ## Settings and data model

`TikTokerSettings` mirrors the `TikTokerSettings` interface; the two string
enums with behavioural significance are inductive types.  Template strings
write literal braces with `\x7b`/`\x7d` escapes. -/

/-- The `handlePrivateVideos` values. -/
inductive PrivatePolicy where
  | createEmpty
  | skip
  | showError
deriving DecidableEq, Repr

/-- The duplicate-file actions (settings default and modal results). -/
inductive DupAction where
  | replace
  | duplicate
  | skip
deriving DecidableEq, Repr

/-- The plugin settings object. -/
structure TikTokerSettings where
  outputFolder : String
  fileNamingPattern : String
  includeHashtagsInContent : Bool
  hashtagDisplayFormat : String
  enableProperties : Bool
  includeAuthor : Bool
  includeDateCreated : Bool
  includeUrl : Bool
  includeExpandedUrl : Bool
  includeTagsFromHashtags : Bool
  customProperties : String
  transcriptionApi : String
  apiKey : String
  handlePrivateVideos : PrivatePolicy
  duplicateFileHandling : DupAction
  urlTimeout : Nat
  noteTitleTemplate : String
  noteContentTemplate : String
  enableBulkProcessing : Bool
  bypassModalForSingle : Bool
  showBulkProcessingProgress : Bool
deriving Repr

/-- `DEFAULT_SETTINGS` from the source. -/
def DEFAULT_SETTINGS : TikTokerSettings where
  outputFolder := "TikToks"
  fileNamingPattern := "TikTok by \x7b\x7bauthor\x7d\x7d on \x7b\x7bdescription\x7d\x7d"
  includeHashtagsInContent := true
  hashtagDisplayFormat := "#\x7b\x7btag\x7d\x7d"
  enableProperties := true
  includeAuthor := true
  includeDateCreated := true
  includeUrl := true
  includeExpandedUrl := false
  includeTagsFromHashtags := true
  customProperties := ""
  transcriptionApi := "none"
  apiKey := ""
  handlePrivateVideos := .createEmpty
  duplicateFileHandling := .replace
  urlTimeout := 10
  noteTitleTemplate := "\x7b\x7bdate\x7d\x7d Tiktok on \x7b\x7bdescription\x7d\x7d by \x7b\x7bauthor\x7d\x7d"
  noteContentTemplate := "\x7b\x7biframe\x7d\x7d\n\n## Description\n\x7b\x7bdescription\x7d\x7d\n\n## Hashtags\n\x7b\x7bhashtags\x7d\x7d\n\n\x7b\x7btranscription\x7d\x7d"
  enableBulkProcessing := true
  bypassModalForSingle := true
  showBulkProcessingProgress := true

/-- The record assembled by `fetchTikTokData` and consumed by templating and
note creation.  Fields that a given source branch leaves `undefined` are
`none`/`false`. -/
structure TikTokData where
  author : String
  description : String
  hashtags : List String
  url : String
  expandedUrl : String
  embedHtml : String
  thumbnailUrl : Option String := none
  videoId : Option String
  createdDate : String
  postedDate : String
  oembedFailed : Bool
  isSlideshow : Bool := false
  isPrivate : Bool := false
deriving Repr, DecidableEq

/-- Body of a successful oEmbed response (`author_name`, `title`,
`thumbnail_url`, `html`); absent JSON fields are `none`. -/
structure OembedData where
  authorName : Option String := none
  title : Option String := none
  thumbnailUrl : Option String := none
  html : Option String := none
deriving Repr

/-- What a failed network call exposes to `detectPrivateVideo`: the thrown
error message and, when present, a `status` field. -/
structure FetchError where
  message : String
  status : Option Nat := none
deriving Repr

/-- Outcome oracle for the network calls one resolution may make:
the oEmbed request, the redirect-expansion HEAD request, and the
last-modified HEAD request (the latter parameterized by the timeout in
milliseconds the caller configures; `none` covers request failure, a
missing header, and an unparseable header date). -/
structure NetOutcomes where
  oembed : Except FetchError OembedData
  expandHead : Except Unit String
  lastModified : Nat → Option Nat

/-- Model of the JS truthiness idiom `x || dflt` on a possibly-absent
string (both `undefined` and `""` fall through). -/
def jsOrS (x : Option String) (dflt : String) : String :=
  match x with
  | some s => if s = "" then dflt else s
  | none => dflt

/-- Model of JS non-global `s.replace(pat, repl)` with a string pattern:
only the first occurrence is replaced. -/
def replaceFirstGo (pat repl : List Char) : List Char → List Char
  | [] => []
  | c :: rest =>
    if ¬ pat.isEmpty ∧ pat.isPrefixOf (c :: rest) then
      repl ++ (c :: rest).drop pat.length
    else
      c :: replaceFirstGo pat repl rest

/-- Model of `s.replace("@", "")` and friends (first occurrence only). -/
def strReplaceFirst (s pat repl : String) : String :=
  ⟨replaceFirstGo pat.data repl.data s.data⟩

/-! ## Field extraction scanners (the regexes of `main.ts`) -/

/-- Decimal digit test (`\d`). -/
def isDigitChar (c : Char) : Bool := ('0' ≤ c && c ≤ '9')

/-- Scanner for `/\/video\/(\d+)/`: first position where `/video/` is
followed by at least one digit; returns the maximal digit run. -/
def videoIdScan : List Char → Option String
  | [] => none
  | c :: rest =>
    if "/video/".data.isPrefixOf (c :: rest) then
      let digits := ((c :: rest).drop 7).takeWhile isDigitChar
      if digits.isEmpty then videoIdScan rest else some ⟨digits⟩
    else videoIdScan rest

/-- `extractVideoId` from the source. -/
def extractVideoId (url : String) : Option String :=
  videoIdScan url.data

/-- Scanner for `/@([^\/]+)/`: first `@` followed by at least one
non-slash character; returns the maximal such run. -/
def authorScan : List Char → Option String
  | [] => none
  | c :: rest =>
    if c = '@' then
      let run := rest.takeWhile (fun c2 => ¬ c2 = '/')
      if run.isEmpty then authorScan rest else some ⟨run⟩
    else authorScan rest

/-- `extractAuthorFromUrl` from the source: `"@" + handle`, or
`"Unknown"` when the URL has no handle segment. -/
def extractAuthorFromUrl (url : String) : String :=
  match authorScan url.data with
  | some a => "@" ++ a
  | none => "Unknown"

/-- Scanner for `/data-video-id="(\d+)"/` over oEmbed markup. -/
def dataVideoIdScan : List Char → Option String
  | [] => none
  | c :: rest =>
    if ("data-video-id=\"").data.isPrefixOf (c :: rest) then
      let digits := ((c :: rest).drop 15).takeWhile isDigitChar
      if ¬ digits.isEmpty ∧ (((c :: rest).drop 15).drop digits.length).head? = some '"' then
        some ⟨digits⟩
      else dataVideoIdScan rest
    else dataVideoIdScan rest

/-- Character class of the hashtag regex
`/#[\wÀ-ɏḀ-ỿ]+/gi`. -/
def isHashtagChar (c : Char) : Bool :=
  isWordChar c || (0xc0 ≤ c.toNat && c.toNat ≤ 0x24f) ||
    (0x1e00 ≤ c.toNat && c.toNat ≤ 0x1eff)

/-- Global scanner for the hashtag regex: at each `#` followed by at least
one class character, emit the marker plus the maximal run and resume after
it; fuel is the remaining length. -/
def hashtagScan : Nat → List Char → List String
  | 0, _ => []
  | _ + 1, [] => []
  | fuel + 1, c :: rest =>
    if c = '#' then
      let run := rest.takeWhile isHashtagChar
      if run.isEmpty then hashtagScan fuel rest
      else ⟨'#' :: run⟩ :: hashtagScan fuel (rest.drop run.length)
    else hashtagScan fuel rest

/-- `extractHashtags` from the source: all matches of the hashtag regex, in
order of occurrence, duplicates included (`String.match` with `g` returns
every match). -/
def extractHashtags (text : String) : List String :=
  hashtagScan text.data.length text.data

/-! ## Redirect resolver (`expandUrl`) -/

/-- Result of `expandUrl` together with whether a HEAD request was issued
(the function's one observable side effect). -/
structure ExpandEffect where
  result : String
  requested : Bool
deriving Repr, DecidableEq

/-- The guard of `expandUrl`: the URL contains `vm.tiktok.com` or
`tiktok.com/t/`. -/
def isShortLinkForm (url : String) : Bool :=
  strContains url "vm.tiktok.com" || strContains url "tiktok.com/t/"

/-- `expandUrl` from the source, with the HEAD outcome as an oracle: for a
short-link form, issue the request and return its final URL, or the
original URL when the request fails (timeout, abort, network error);
otherwise return the original URL with no request. -/
def expandUrl (url : String) (head : Except Unit String) : ExpandEffect :=
  if isShortLinkForm url then
    match head with
    | .ok finalUrl => ⟨finalUrl, true⟩
    | .error _ => ⟨url, true⟩
  else ⟨url, false⟩

/-! ## Metadata resolver -/

/-- `detectPrivateVideo` from the source: heuristic classification of a
fetch error as private/restricted content. -/
def detectPrivateVideo (e : FetchError) : Bool :=
  let msg := toLowerStr e.message
  strContains msg "403" || strContains msg "forbidden" ||
    strContains msg "private" || strContains msg "not available" ||
    strContains msg "access denied" || strContains msg "restricted" ||
    e.status == some 403

/-- `createObsidianCompatibleEmbed` from the source (its `oembedData`
parameter is unused in the body and omitted here): an iframe on the embed
path when an identifier is known, else a plain link paragraph. -/
def createObsidianCompatibleEmbed (videoId : Option String) (url : String) : String :=
  match videoId with
  | some vid =>
    "<iframe width=\"325\" height=\"760\" src=\"https://www.tiktok.com/embed/v2/" ++
      vid ++ "\"></iframe>"
  | none =>
    "<p>TikTok video: <a href=\"" ++ url ++ "\" target=\"_blank\">" ++ url ++ "</a></p>"

/-- Decode guard bounds of `extractTikTokPostedDate` (the source comments
them as Jan 1 2010 and Jan 1 2030). -/
def tiktokEpochLower : Nat := 1262304000

/-- Upper decode guard bound (Jan 1 2030). -/
def tiktokEpochUpper : Nat := 1893456000

/-- The fixed timeout, in milliseconds, of the last-modified HEAD request. -/
def lastModifiedTimeoutMs : Nat := 5000

/-- Model of `BigInt(digitString)`: the value of a decimal digit string.
Every identifier reaching it is produced by a `\d+` capture. -/
def strToNat (s : String) : Nat := decVal s.data

/-- `extractTikTokPostedDate` from the source: when the identifier has at
least 19 characters, shift its value right by 32 bits and accept the
result as a unix timestamp exactly when it is strictly between the two
epoch bounds; otherwise fall back to the last-modified HEAD lookup (fixed
5s timeout), and finally to the current date.  The JS `Number(shifted)`
narrowing is exact below `2^53` and cannot move a value across the guard
bounds, so the model compares exact values. -/
def extractTikTokPostedDate (videoId : Option String)
    (lastModified : Nat → Option Nat) (now : Nat) : String :=
  let headFallback :=
    match lastModified lastModifiedTimeoutMs with
    | some t => dateStr t
    | none => dateStr now
  match videoId with
  | some id =>
    if 19 ≤ id.length then
      let timestamp := strToNat id / 2 ^ 32
      if tiktokEpochLower < timestamp ∧ timestamp < tiktokEpochUpper then
        dateStr timestamp
      else headFallback
    else headFallback
  | none => headFallback

/-- `handleSlideshowUrl` from the source: a slideshow record built from
URL-derived fields only. -/
def handleSlideshowUrl (url : String) (videoId : Option String)
    (lastModified : Nat → Option Nat) (now : Nat) : TikTokData :=
  let authorWithAt := extractAuthorFromUrl url
  let author := strReplaceFirst authorWithAt "@" ""
  let postedDate := extractTikTokPostedDate videoId lastModified now
  { author := author
    description := "TikTok Photo Slideshow"
    hashtags := []
    url := url
    expandedUrl := url
    embedHtml := "![TikTok photo slideshow by " ++ authorWithAt ++ "](" ++ url ++ ")"
    videoId := videoId
    createdDate := dateStr now
    postedDate := postedDate
    oembedFailed := false
    isSlideshow := true }

/-- `handlePrivateVideo` from the source: branch on the configured
private-video policy; `skip` yields no record. -/
def handlePrivateVideo (s : TikTokerSettings) (url : String)
    (videoId : Option String) (lastModified : Nat → Option Nat) (now : Nat) :
    Option TikTokData :=
  let author := extractAuthorFromUrl url
  let postedDate := extractTikTokPostedDate videoId lastModified now
  match s.handlePrivateVideos with
  | .skip => none
  | .showError =>
    some { author := author
           description := "Private TikTok Video - Access Denied"
           hashtags := []
           url := url
           expandedUrl := url
           embedHtml := "<p><strong>⚠️ Private Video</strong></p><p>This TikTok video is private and cannot be accessed.</p><p>Original URL: <a href=\"" ++ url ++ "\" target=\"_blank\">" ++ url ++ "</a></p>"
           videoId := videoId
           createdDate := dateStr now
           postedDate := postedDate
           oembedFailed := true
           isPrivate := true }
  | .createEmpty =>
    some { author := author
           description := "Private TikTok Video"
           hashtags := []
           url := url
           expandedUrl := url
           embedHtml := "<p>TikTok video (private): <a href=\"" ++ url ++ "\" target=\"_blank\">" ++ url ++ "</a></p>"
           videoId := videoId
           createdDate := dateStr now
           postedDate := postedDate
           oembedFailed := true
           isPrivate := true }

/-- Desktop branch of `fetchTikTokData`: slideshow short-circuit, then the
oEmbed attempt; on failure, private-content routing or the heuristic
fallback record.  Returns `none` exactly when `handlePrivateVideo` skips. -/
def fetchTikTokDataDesktop (s : TikTokerSettings) (url : String)
    (net : NetOutcomes) (now : Nat) : Option TikTokData :=
  let videoId := extractVideoId url
  if strContains url "/photo/" then
    some (handleSlideshowUrl url videoId net.lastModified now)
  else
    match net.oembed with
    | .ok od =>
      let finalVideoId :=
        match videoId with
        | some v => some v
        | none =>
          match od.html with
          | some html => if html = "" then none else dataVideoIdScan html.data
          | none => none
      let workingEmbed := createObsidianCompatibleEmbed finalVideoId url
      let postedDate := extractTikTokPostedDate finalVideoId net.lastModified now
      some { author := jsOrS od.authorName "Unknown"
             description := jsOrS od.title "TikTok Video"
             hashtags := extractHashtags (jsOrS od.title "")
             url := url
             expandedUrl := url
             embedHtml := workingEmbed
             thumbnailUrl := od.thumbnailUrl
             videoId := finalVideoId
             createdDate := dateStr now
             postedDate := postedDate
             oembedFailed := false }
    | .error e =>
      if detectPrivateVideo e then
        handlePrivateVideo s url videoId net.lastModified now
      else
        let postedDate := extractTikTokPostedDate videoId net.lastModified now
        let authorWithAt := extractAuthorFromUrl url
        let author := strReplaceFirst authorWithAt "@" ""
        if strContains url "/photo/" then
          some { author := author
                 description := "TikTok Photo Slideshow"
                 hashtags := []
                 url := url
                 expandedUrl := url
                 embedHtml := "![TikTok photo slideshow by " ++ authorWithAt ++ "](" ++ url ++ ")"
                 videoId := videoId
                 createdDate := dateStr now
                 postedDate := postedDate
                 oembedFailed := true
                 isSlideshow := true }
        else
          some { author := author
                 description := "TikTok Post"
                 hashtags := []
                 url := url
                 expandedUrl := url
                 embedHtml := createObsidianCompatibleEmbed videoId url
                 videoId := videoId
                 createdDate := dateStr now
                 postedDate := postedDate
                 oembedFailed := true
                 isSlideshow := false }

/-- `fetchTikTokDataMobile` from the source: expand first, then URL-derived
fields only (oEmbed skipped); a missing author or identifier routes to
private-content handling. -/
def fetchTikTokDataMobile (s : TikTokerSettings) (url : String)
    (net : NetOutcomes) (now : Nat) : Option TikTokData :=
  let expandedUrl := (expandUrl url net.expandHead).result
  let videoId := extractVideoId expandedUrl
  if strContains expandedUrl "/photo/" then
    some (handleSlideshowUrl expandedUrl videoId net.lastModified now)
  else
    let authorWithAt := extractAuthorFromUrl expandedUrl
    let author := strReplaceFirst authorWithAt "@" ""
    if author = "Unknown" ∨ videoId = none then
      handlePrivateVideo s expandedUrl videoId net.lastModified now
    else
      let postedDate := extractTikTokPostedDate videoId net.lastModified now
      let embedHtml := createObsidianCompatibleEmbed videoId expandedUrl
      let description := "TikTok from " ++ authorWithAt
      some { author := author
             description := description
             hashtags := []
             url := url
             expandedUrl := expandedUrl
             embedHtml := embedHtml ++ "\n\n![" ++ description ++ "](" ++ expandedUrl ++ ")"
             videoId := videoId
             createdDate := dateStr now
             postedDate := postedDate
             oembedFailed := true }

/-- `fetchTikTokData` from the source: delegate to the mobile path on a
mobile platform, else run the desktop oEmbed-first path. -/
def fetchTikTokData (isMobile : Bool) (s : TikTokerSettings) (url : String)
    (net : NetOutcomes) (now : Nat) : Option TikTokData :=
  if isMobile then fetchTikTokDataMobile s url net now
  else fetchTikTokDataDesktop s url net now

/-! ## Template engine -/

/-- Model of JS truthiness `x || dflt` on a plain string. -/
def jsOr (x dflt : String) : String :=
  if x = "" then dflt else x

/-- Character filter for the global class replace
`.replace(/[^\w\s-]/g, '')`. -/
def keepWordSpaceHyphen (l : List Char) : List Char :=
  l.filter (fun c => isWordChar c || isSpaceChar c || c = '-')

/-- Case-insensitive prefix test (both sides lowered). -/
def ciPrefix (pat s : List Char) : Bool :=
  ((s.take pat.length).map Char.toLower) = pat.map Char.toLower

/-- Case-insensitive global literal replacement, the model of replacing by
`new RegExp(escapedLiteral, 'gi')`; the source escapes every regex
metacharacter first, so the pattern is literal. -/
def replaceAllCIGo (pat repl : List Char) : Nat → List Char → List Char
  | 0, s => s
  | _ + 1, [] => []
  | fuel + 1, c :: rest =>
    if ¬ pat.isEmpty ∧ ciPrefix pat (c :: rest) then
      repl ++ replaceAllCIGo pat repl fuel ((c :: rest).drop pat.length)
    else
      c :: replaceAllCIGo pat repl fuel rest

/-- String wrapper for `replaceAllCIGo`. -/
def strReplaceAllCI (s pat repl : String) : String :=
  ⟨replaceAllCIGo pat.data repl.data s.data.length s.data⟩

/-- Model of `.replace(/\s+/g, ' ')`: collapse whitespace runs to one
space. -/
def collapseWsGo : Nat → List Char → List Char
  | 0, s => s
  | _ + 1, [] => []
  | fuel + 1, c :: rest =>
    if isSpaceChar c then ' ' :: collapseWsGo fuel (rest.dropWhile isSpaceChar)
    else c :: collapseWsGo fuel rest

/-- String wrapper for `collapseWsGo`. -/
def strCollapseWs (s : String) : String :=
  ⟨collapseWsGo s.data.length s.data⟩

/-- `generateFileName` from the source.  `now` stands for the
`new Date()` fallback the source evaluates when `data.createdDate` and
`data.date` are both absent (`data.date` is never set by any producer in
the source and is omitted from the record model). -/
def generateFileName (s : TikTokerSettings) (data : TikTokData) (now : Nat) : String :=
  let s1 := strReplaceAll s.fileNamingPattern "\x7b\x7bauthor\x7d\x7d"
    ⟨(jsOr data.author "unknown").data.filter (fun c => ¬ (c = '@' || c = '#'))⟩
  let s2 := strReplaceAll s1 "\x7b\x7bdate\x7d\x7d" (jsOr data.createdDate (dateStr now))
  let s3 := strReplaceAll s2 "\x7b\x7bvideoId\x7d\x7d" (jsOrS data.videoId "unknown")
  let s4 := strReplaceAll s3 "\x7b\x7bdescription\x7d\x7d"
    (strTrim ⟨keepWordSpaceHyphen ((jsOr data.description "TikTok Video").data.take 100)⟩)
  strReplaceAll s4 "\x7b\x7btitle\x7d\x7d"
    ⟨keepWordSpaceHyphen ((jsOr data.description "tiktok").data.take 50)⟩

/-- `generateNoteTitle` from the source. -/
def generateNoteTitle (s : TikTokerSettings) (data : TikTokData) (now : Nat) : String :=
  let s1 := strReplaceAll s.noteTitleTemplate "\x7b\x7bdate\x7d\x7d"
    (jsOr data.createdDate (dateStr now))
  let s2 := strReplaceAll s1 "\x7b\x7bdescription\x7d\x7d" (jsOr data.description "Unknown")
  strReplaceAll s2 "\x7b\x7bauthor\x7d\x7d" (jsOr data.author "Unknown")

/-- `generateNoteContent` from the source: optional frontmatter block, then
the body template with `iframe`, cleaned `description`, `hashtags` (with
the fixed trailing `#tiktoker` tag) and the inert `transcription`
placeholder substituted. -/
def generateNoteContent (s : TikTokerSettings) (data : TikTokData) (now : Nat) : String :=
  let frontmatter :=
    if s.enableProperties then
      "---\n" ++
      (if s.includeAuthor then "author: " ++ data.author ++ "\n" else "") ++
      (if s.includeDateCreated then
        "created: " ++ jsOr data.createdDate (dateStr now) ++ "\n" else "") ++
      (if ¬ data.postedDate = "" ∧ ¬ data.postedDate = data.createdDate then
        "posted: " ++ data.postedDate ++ "\n" else "") ++
      (if s.includeUrl then "url: " ++ data.url ++ "\n" else "") ++
      (if s.includeExpandedUrl ∧ ¬ data.expandedUrl = "" ∧ ¬ data.expandedUrl = data.url then
        "expanded_url: " ++ data.expandedUrl ++ "\n" else "") ++
      "source: \"#tiktoker\"\n" ++
      (if s.includeTagsFromHashtags then
        "tags: [" ++
          (String.intercalate ", "
            (["tiktoker", "unreviewed"] ++
              data.hashtags.map (fun tag => strReplaceFirst tag "#" ""))) ++ "]\n"
      else "tags: [tiktoker, unreviewed]\n") ++
      "---\n\n"
    else ""
  let embedHtml := jsOr data.embedHtml "TikTok video embed not available"
  let hashtags := String.intercalate " " (data.hashtags ++ ["#tiktoker"])
  let cleanDescription :=
    if 0 < data.hashtags.length then
      strTrim (strCollapseWs
        (data.hashtags.foldl
          (fun acc tag => strTrim (strReplaceAllCI acc tag "")) data.description))
    else data.description
  let b1 := strReplaceAll s.noteContentTemplate "\x7b\x7biframe\x7d\x7d" embedHtml
  let b2 := strReplaceAll b1 "\x7b\x7bdescription\x7d\x7d" cleanDescription
  let b3 := strReplaceAll b2 "\x7b\x7bhashtags\x7d\x7d" hashtags
  frontmatter ++ strReplaceAll b3 "\x7b\x7btranscription\x7d\x7d" ""

/-! ## Note writer (`createTikTokNote`) over an explicit vault state

The Obsidian vault is a pair of path lists (folders, files with contents);
`getAbstractFileByPath` is a path lookup over both.  Fallible filesystem
operations take their outcome as an oracle (`folderOk`, `createOk`,
`deleteOk`); an `Except.error` result models an exception propagating out
of `createTikTokNote` (only `createFolder` is outside the `try`). -/

/-- The vault state. -/
structure Vault where
  folders : List String
  files : List (String × String)
deriving Repr

/-- Model of `getAbstractFileByPath(p) !== null`. -/
def vaultGet (v : Vault) (p : String) : Bool :=
  v.files.any (fun f => f.1 = p) || v.folders.any (fun q => q = p)

/-- Model of a successful `vault.createFolder`. -/
def vaultCreateFolder (v : Vault) (p : String) : Vault :=
  { v with folders := v.folders ++ [p] }

/-- Model of a successful `vault.create`. -/
def vaultCreate (v : Vault) (p content : String) : Vault :=
  { v with files := v.files ++ [(p, content)] }

/-- Model of a successful `vault.delete` of the object at `p`. -/
def vaultDelete (v : Vault) (p : String) : Vault :=
  { folders := v.folders.filter (fun q => ¬ q = p)
    files := v.files.filter (fun f => ¬ f.1 = p) }

/-- Target path resolution: `{folder}/{name}.md`, or `{name}.md` when no
output folder is configured (the source tests the folder string's
truthiness). -/
def notePath (folderPath name : String) : String :=
  if folderPath = "" then name ++ ".md" else folderPath ++ "/" ++ name ++ ".md"

/-- The `- N` suffix probe of the `duplicate` action: starting at
`counter`, return the first suffix whose path is unoccupied; `none` when
the fuel runs out (the callers' fuel provably cannot -- see
`probeGo_ne_none`). -/
def probeGo (v : Vault) (folderPath fileName : String) : Nat → Nat → Option Nat
  | 0, _ => none
  | fuel + 1, counter =>
    if vaultGet v (notePath folderPath (fileName ++ "-" ++ natDec counter)) then
      probeGo v folderPath fileName fuel (counter + 1)
    else some counter

theorem notePath_data (fp nm : String) :
    (notePath fp nm).data =
      (if fp = "" then [] else fp.data ++ ['/']) ++ nm.data ++ ['.', 'm', 'd'] := by
  unfold notePath
  split <;> simp [String.data_append]

/-- Suffixed note paths are injective in the counter. -/
theorem notePath_suffix_inj (fp fn : String) (a b : Nat)
    (h : notePath fp (fn ++ "-" ++ natDec a) = notePath fp (fn ++ "-" ++ natDec b)) :
    a = b := by
  have hd := congrArg String.data h
  rw [notePath_data, notePath_data] at hd
  have h1 := List.append_cancel_right hd
  have h2 := List.append_cancel_left h1
  have h3 : (fn ++ "-").data ++ (natDec a).data = (fn ++ "-").data ++ (natDec b).data := by
    simpa [String.data_append, List.append_assoc] using h2
  have h4 := List.append_cancel_left h3
  exact natDec_injective (congrArg String.mk h4)

theorem probeGo_some_of_free (v : Vault) (fp fn : String) (fuel c : Nat)
    (h : ∃ k, c ≤ k ∧ k < c + fuel ∧
      vaultGet v (notePath fp (fn ++ "-" ++ natDec k)) = false) :
    ¬ probeGo v fp fn fuel c = none := by
  induction fuel generalizing c with
  | zero => obtain ⟨k, h1, h2, _⟩ := h; omega
  | succ fuel ih =>
    obtain ⟨k, h1, h2, h3⟩ := h
    by_cases hc : vaultGet v (notePath fp (fn ++ "-" ++ natDec c)) = true
    · have hk : ¬ k = c := by
        intro he; rw [he] at h3; rw [h3] at hc; exact Bool.false_ne_true hc
      simp only [probeGo, if_pos hc]
      exact ih (c + 1) ⟨k, by omega, by omega, h3⟩
    · simp only [probeGo, if_neg hc]
      exact Option.some_ne_none c

theorem vaultGet_mem (v : Vault) (p : String) (h : vaultGet v p = true) :
    p ∈ v.files.map Prod.fst ++ v.folders := by
  unfold vaultGet at h
  rw [Bool.or_eq_true, List.any_eq_true, List.any_eq_true] at h
  rcases h with ⟨f, hf, he⟩ | ⟨q, hq, he⟩
  · rw [List.mem_append, List.mem_map]
    exact Or.inl ⟨f, hf, by simpa using he⟩
  · rw [List.mem_append]
    have : q = p := by simpa using he
    exact Or.inr (this ▸ hq)

/-- With fuel one more than the number of vault entries, the suffix probe
cannot exhaust: the candidate paths are pairwise distinct, so they cannot
all be occupied. -/
theorem probeGo_ne_none (v : Vault) (fp fn : String) :
    ¬ probeGo v fp fn (v.files.length + v.folders.length + 1) 1 = none := by
  set F := v.files.length + v.folders.length + 1 with hF
  apply probeGo_some_of_free
  by_contra hall
  push_neg at hall
  have hocc : ∀ k, 1 ≤ k → k < 1 + F →
      vaultGet v (notePath fp (fn ++ "-" ++ natDec k)) = true := by
    intro k h1 h2
    have := hall k h1 h2
    revert this
    cases vaultGet v (notePath fp (fn ++ "-" ++ natDec k)) <;> simp
  have hsub : (List.range' 1 F).map
      (fun k => notePath fp (fn ++ "-" ++ natDec k)) ⊆
      v.files.map Prod.fst ++ v.folders := by
    intro p hp
    rw [List.mem_map] at hp
    obtain ⟨k, hk, rfl⟩ := hp
    rw [List.mem_range'] at hk
    obtain ⟨i, hi, hk⟩ := hk
    exact vaultGet_mem v _ (hocc k (by omega) (by omega))
  have hnodup : ((List.range' 1 F).map
      (fun k => notePath fp (fn ++ "-" ++ natDec k))).Nodup :=
    (List.nodup_range' 1 F 1 Nat.one_pos).map
      (fun a b hab => notePath_suffix_inj fp fn a b hab)
  have hlen := (hnodup.subperm hsub).length_le
  rw [List.length_map, List.length_range', List.length_append,
    List.length_map] at hlen
  omega

/-- A `createTikTokNote` return object.  Absent JS fields are `none`
(`duplicate` is read only for truthiness, so an absent field is `false`). -/
structure NoteOutcome where
  success : Bool
  duplicate : Bool := false
  fileName : Option String := none
  noteTitle : Option String := none
deriving Repr, DecidableEq

/-- The full observable effect of one `createTikTokNote` call: the returned
object, the vault afterwards, and whether the duplicate-resolution modal
was opened. -/
structure WriteEffect where
  outcome : NoteOutcome
  vault : Vault
  promptShown : Bool

/-- `createTikTokNote` from the source.  `promptAnswer` is the result the
`DuplicateFileModal` would resolve with (consulted only on the single-mode
collision path), and `folderOk`/`createOk`/`deleteOk` are the filesystem
outcome oracles.  An `Except.error` is an exception escaping the function
(only `createFolder` runs outside the `try`).  In the `duplicate` branch
the source's re-check `filePath === originalPath` is always false -- the
probed path carries a `-N` suffix -- so that branch plainly creates; in the
`replace` branch `filePath` is unchanged, so it deletes then creates. -/
def createTikTokNote (s : TikTokerSettings) (data : TikTokData) (isBulk : Bool)
    (v : Vault) (promptAnswer : DupAction) (folderOk : Bool)
    (createOk : String → Bool) (deleteOk : Bool) (now : Nat) :
    Except String WriteEffect :=
  let fileName := generateFileName s data now
  let noteTitle := generateNoteTitle s data now
  let noteContent := generateNoteContent s data now
  let folderPath := s.outputFolder
  let folderStep : Except String Vault :=
    if ¬ folderPath = "" ∧ vaultGet v folderPath = false then
      if folderOk then .ok (vaultCreateFolder v folderPath)
      else .error "createFolder failed"
    else .ok v
  match folderStep with
  | .error e => .error e
  | .ok v1 =>
    let filePath0 := notePath folderPath fileName
    if vaultGet v1 filePath0 then
      if isBulk then
        .ok { outcome := { success := false, duplicate := true,
                           fileName := some fileName, noteTitle := some noteTitle }
              vault := v1, promptShown := false }
      else
        match promptAnswer with
        | .skip =>
          .ok { outcome := { success := false }, vault := v1, promptShown := true }
        | .duplicate =>
          match hp : probeGo v1 folderPath fileName
              (v1.files.length + v1.folders.length + 1) 1 with
          | none => absurd hp (probeGo_ne_none v1 folderPath fileName)
          | some n =>
            let filePath := notePath folderPath (fileName ++ "-" ++ natDec n)
            if createOk filePath then
              .ok { outcome := { success := true, fileName := some fileName,
                                 noteTitle := some noteTitle }
                    vault := vaultCreate v1 filePath noteContent
                    promptShown := true }
            else
              .ok { outcome := { success := false }, vault := v1, promptShown := true }
        | .replace =>
          if deleteOk then
            let v2 := vaultDelete v1 filePath0
            if createOk filePath0 then
              .ok { outcome := { success := true, fileName := some fileName,
                                 noteTitle := some noteTitle }
                    vault := vaultCreate v2 filePath0 noteContent
                    promptShown := true }
            else
              .ok { outcome := { success := false }, vault := v2, promptShown := true }
          else
            .ok { outcome := { success := false }, vault := v1, promptShown := true }
    else
      if createOk filePath0 then
        .ok { outcome := { success := true, fileName := some fileName,
                           noteTitle := some noteTitle }
              vault := vaultCreate v1 filePath0 noteContent
              promptShown := false }
      else
        .ok { outcome := { success := false }, vault := v1, promptShown := false }

/-! ## URL discovery (`extractTikTokUrls`, `isTikTokUrl`) -/

/-- Case-insensitive literal strip: consume `pat` (up to case) from the
front of `s`. -/
def ciStrip (pat s : List Char) : Option (List Char) :=
  if ciPrefix pat s ∧ pat.length ≤ s.length then some (s.drop pat.length) else none

/-- Case-sensitive literal strip. -/
def csStrip (pat s : List Char) : Option (List Char) :=
  if pat.isPrefixOf s then some (s.drop pat.length) else none

/-- Characters the extraction regex accepts in a URL body:
the complement of `[\s\]\)\"\'<>]`. -/
def isUrlBodyChar (c : Char) : Bool :=
  ¬ (isSpaceChar c || c = ']' || c = ')' || c = '"' || c = '\'' || c = '<' || c = '>')

/-- `https?:\/\/` of the extraction regex (case-insensitive). -/
def ciScheme (s : List Char) : Option (List Char) :=
  match ciStrip "https://".data s with
  | some r => some r
  | none => ciStrip "http://".data s

/-- `(tiktok\.com|vm\.tiktok\.com)` (case-insensitive, first alternative
preferred). -/
def ciDomain (s : List Char) : Option (List Char) :=
  match ciStrip "tiktok.com".data s with
  | some r => some r
  | none => ciStrip "vm.tiktok.com".data s

/-- `(?:www\.)?` then the domain alternation, with the regex backtrack:
when `www.` matches but no domain follows, retry without it. -/
def ciHost (s : List Char) : Option (List Char) :=
  match ciStrip "www.".data s with
  | some r =>
    match ciDomain r with
    | some r2 => some r2
    | none => ciDomain s
  | none => ciDomain s

/-- One attempt of the extraction regex at a fixed position: the length of
the match, if any (scheme, optional `www.`, domain, `/`, then a nonempty
body run). -/
def urlMatchAt (s : List Char) : Option Nat :=
  match ciScheme s with
  | none => none
  | some r1 =>
    match ciHost r1 with
    | none => none
    | some r2 =>
      match r2 with
      | '/' :: r3 =>
        let body := r3.takeWhile isUrlBodyChar
        if body.isEmpty then none
        else some (s.length - r3.length + body.length)
      | _ => none

/-- Global scan of the extraction regex
`/https?:\/\/(?:www\.)?(tiktok\.com|vm\.tiktok\.com)\/[^\s\]\)\"\'<>]+/gi`:
left to right, resuming after each match; the matched text keeps its
original case. -/
def urlScanGo (fuel : Nat) (s : List Char) : List String :=
  match fuel, s with
  | 0, _ => []
  | _ + 1, [] => []
  | fuel + 1, c :: rest =>
    match urlMatchAt (c :: rest) with
    | some len => ⟨(c :: rest).take len⟩ :: urlScanGo fuel ((c :: rest).drop len)
    | none => urlScanGo fuel rest

/-- Model of `[...new Set(matches)]`: deduplicate keeping the first
occurrence of each element, preserving order. -/
def dedupFirstGo (seen : List String) : List String → List String
  | [] => []
  | x :: rest =>
    if x ∈ seen then dedupFirstGo seen rest
    else x :: dedupFirstGo (seen ++ [x]) rest

/-- First-occurrence deduplication. -/
def dedupFirst (l : List String) : List String :=
  dedupFirstGo [] l

/-- The `[\w.-]` class of the third validation pattern. -/
def isWordDotHyphen (c : Char) : Bool :=
  isWordChar c || c = '.' || c = '-'

/-- Case-sensitive `https?:\/\/`. -/
def csScheme (s : List Char) : Option (List Char) :=
  match csStrip "https://".data s with
  | some r => some r
  | none => csStrip "http://".data s

/-- First validation pattern:
`/^https?:\/\/(www\.)?(tiktok\.com|vm\.tiktok\.com)/`. -/
def tikTokPattern1 (s : List Char) : Bool :=
  match csScheme s with
  | none => false
  | some r1 =>
    let dom := fun t =>
      match csStrip "tiktok.com".data t with
      | some _ => true
      | none => (csStrip "vm.tiktok.com".data t).isSome
    match csStrip "www.".data r1 with
    | some r2 => dom r2 || dom r1
    | none => dom r1

/-- Second validation pattern: `/^https?:\/\/tiktok\.com\/t\//`. -/
def tikTokPattern2 (s : List Char) : Bool :=
  match csScheme s with
  | none => false
  | some r1 => "tiktok.com/t/".data.isPrefixOf r1

/-- Third validation pattern:
`/^https?:\/\/(www\.)?tiktok\.com\/@[\w.-]+\/video\/\d+/`. -/
def tikTokPattern3 (s : List Char) : Bool :=
  match csScheme s with
  | none => false
  | some r1 =>
    let afterDomain := fun t =>
      match csStrip "tiktok.com/@".data t with
      | none => false
      | some r2 =>
        let handle := r2.takeWhile isWordDotHyphen
        if handle.isEmpty then false
        else
          match csStrip "/video/".data (r2.drop handle.length) with
          | none => false
          | some r3 => ¬ (r3.takeWhile isDigitChar).isEmpty
    match csStrip "www.".data r1 with
    | some r2 => afterDomain r2 || afterDomain r1
    | none => afterDomain r1

/-- `isTikTokUrl` from the source: `some` over the three anchored patterns,
applied to the trimmed URL. -/
def isTikTokUrl (url : String) : Bool :=
  let t := (strTrim url).data
  tikTokPattern1 t || tikTokPattern2 t || tikTokPattern3 t

/-- `extractTikTokUrls` from the source: scan all matches, deduplicate by
first occurrence, then filter through `isTikTokUrl`. -/
def extractTikTokUrls (text : String) : List String :=
  (dedupFirst (urlScanGo text.data.length text.data)).filter isTikTokUrl

/-! ## Clipboard entry point -/

/-- `shouldShowBulkModal` from the source. -/
def shouldShowBulkModal (s : TikTokerSettings) (urls : List String) : Bool :=
  if ¬ s.enableBulkProcessing then false
  else if urls.length ≤ 1 ∧ s.bypassModalForSingle then false
  else decide (1 < urls.length)

/-- The action `processTikTokFromClipboard` dispatches to after reading the
clipboard: the failure notice, the no-URLs notice, the bulk modal seeded
with all discovered URLs, or single processing of exactly one URL. -/
inductive ClipAction where
  | errorNotice
  | noticeNoUrls
  | bulkModal (urls : List String)
  | singleProcess (url : String)
deriving Repr, DecidableEq

/-- `processTikTokFromClipboard` from the source, up to the dispatch: the
clipboard read outcome is an oracle; discovery runs on its text; an empty
result notifies, `shouldShowBulkModal` routes to the bulk modal, and
otherwise only `tikTokUrls[0]` is processed. -/
def processTikTokFromClipboard (s : TikTokerSettings)
    (clip : Except Unit String) : ClipAction :=
  match clip with
  | .error _ => .errorNotice
  | .ok text =>
    match extractTikTokUrls text with
    | [] => .noticeNoUrls
    | u :: rest =>
      if shouldShowBulkModal s (u :: rest) then .bulkModal (u :: rest)
      else .singleProcess u

/-! ## Batch orchestrator (`processBulkTikToks`)

One loop iteration races `processTikTokUrlBulk(url)` against a
`(urlTimeout + 5)s` timer.  The oracle `outcomes i` gives the winner of the
race in iteration `i`: either the settled per-item object, or a thrown
error message (the timer rejects with exactly `"Processing timeout"`).
The loop's fuel counts iterations; `none` means the fuel was exhausted
with the queue still non-empty, i.e. the run reached no terminal state
within that many iterations. -/

/-- What `processTikTokUrlBulk` resolves with (absent fields `none`/
`false`). -/
structure BulkItemRes where
  success : Bool
  duplicate : Bool := false
  fileName : Option String := none
  noteTitle : Option String := none
  oembedFailed : Bool := false
  isSlideshow : Bool := false
  isPrivate : Bool := false
deriving Repr, DecidableEq

/-- One entry of the orchestrator's `results` array. -/
structure BulkResult where
  url : String
  success : Bool
  error : Option String := none
  duplicate : Bool := false
  fileName : Option String := none
  noteTitle : Option String := none
  oembedFailed : Bool := false
  isSlideshow : Bool := false
  isPrivate : Bool := false
deriving Repr, DecidableEq

/-- Winner of the per-iteration race: the item promise settled, or an
error was thrown (a lost race throws `"Processing timeout"`). -/
inductive AttemptOutcome where
  | completed (r : BulkItemRes)
  | thrown (msg : String)

/-- Orchestrator loop state: the work queue, the accumulated results, and
the `processed` progress counter. -/
structure BulkState where
  queue : List String
  results : List BulkResult
  processed : Nat

/-- One iteration of the `while (processingQueue.length > 0)` body on a
non-empty queue, given the race outcome: on settlement, append the result;
on a thrown `"Processing timeout"` with the (already shifted) queue length
below `2 × urls.length`, push the URL to the back; otherwise record a
failure.  `N` is the length of the orchestrator's original `urls`
argument. -/
def bulkStep (N : Nat) (url : String) (rest : List String)
    (out : AttemptOutcome) (st : BulkState) : BulkState :=
  match out with
  | .completed r =>
    { queue := rest
      results := st.results ++
        [{ url := url, success := r.success, duplicate := r.duplicate,
           fileName := r.fileName, noteTitle := r.noteTitle,
           oembedFailed := r.oembedFailed, isSlideshow := r.isSlideshow,
           isPrivate := r.isPrivate }]
      processed := st.processed + 1 }
  | .thrown msg =>
    if msg = "Processing timeout" ∧ rest.length < N * 2 then
      { queue := rest ++ [url], results := st.results, processed := st.processed }
    else
      { queue := rest
        results := st.results ++ [{ url := url, success := false, error := some msg }]
        processed := st.processed + 1 }

/-- The orchestrator loop: iterate `bulkStep` until the queue empties,
returning the final results, or `none` when `fuel` iterations did not
reach the empty queue. -/
def runBulk (outcomes : Nat → AttemptOutcome) (N : Nat) :
    Nat → Nat → BulkState → Option (List BulkResult)
  | 0, _, st =>
    match st.queue with
    | [] => some st.results
    | _ :: _ => none
  | fuel + 1, i, st =>
    match st.queue with
    | [] => some st.results
    | url :: rest => runBulk outcomes N fuel (i + 1) (bulkStep N url rest (outcomes i) st)

/-- `processBulkTikToks` from the source (up to the progress modal and the
results modal, which consume the returned list): an empty worklist returns
at once; otherwise the loop runs on a queue seeded with the worklist. -/
def processBulkTikToks (outcomes : Nat → AttemptOutcome) (urls : List String)
    (fuel : Nat) : Option (List BulkResult) :=
  if urls.isEmpty then some []
  else runBulk outcomes urls.length fuel 0 ⟨urls, [], 0⟩

/-! ## Claim theorems -/

/-- A state every step of the all-timeouts run maps to itself: shifting the
single URL leaves a queue of length `0 < N * 2`, so the guard
`processingQueue.length < urls.length * 2` holds and the URL is pushed
straight back. -/
theorem runBulk_timeout_fixpoint (N : Nat) (hN : 0 < N) (url : String)
    (res : List BulkResult) (p : Nat) :
    bulkStep N url [] (.thrown "Processing timeout") ⟨[url], res, p⟩ =
      ⟨[url], res, p⟩ := by
  simp [bulkStep, Nat.mul_pos hN (show 0 < 2 by omega)]

theorem runBulk_timeout_none (url : String) (res : List BulkResult) (p : Nat) :
    ∀ fuel i, runBulk (fun _ => .thrown "Processing timeout") 1 fuel i
      ⟨[url], res, p⟩ = none := by
  intro fuel
  induction fuel with
  | zero => intro i; rfl
  | succ fuel ih =>
    intro i
    show runBulk _ 1 fuel (i + 1)
      (bulkStep 1 url [] (.thrown "Processing timeout") ⟨[url], res, p⟩) = none
    rw [runBulk_timeout_fixpoint 1 Nat.one_pos]
    exact ih (i + 1)

/-- C1: the claim's requeue bound does not exist in the code.  The guard
compares the current queue length (which never exceeds the initial
worklist size) with `2 × N`, so it never trips: on a one-URL worklist
whose every attempt times out, the loop body maps its state to itself and
`processBulkTikToks` reaches no terminal state under any iteration bound,
instead of classifying the item as failed once total requeues reach
`2 × N`. -/
theorem C1_bulk_all_timeouts_never_terminates (fuel : Nat) :
    processBulkTikToks (fun _ => .thrown "Processing timeout")
      ["https://vm.tiktok.com/x"] fuel = none := by
  show runBulk _ 1 fuel 0 _ = none
  exact runBulk_timeout_none _ [] 0 fuel 0

/-- C4: `expandUrl` is total; a URL that is not of short-link form is
returned unchanged with no request issued, and when the HEAD request
fails the original URL is returned unchanged. -/
theorem C4_expand_never_raises (url : String) (head : Except Unit String) :
    (isShortLinkForm url = false → expandUrl url head = ⟨url, false⟩) ∧
    (∀ e, head = .error e → (expandUrl url head).result = url) := by
  constructor
  · intro h
    unfold expandUrl
    rw [h]
    rfl
  · intro e he
    unfold expandUrl
    subst he
    by_cases h : isShortLinkForm url <;> simp [h]

/-- C4 witness: a long-form URL passes through untouched with no request,
and a failing expansion of a short link returns the short link. -/
theorem C4_expand_never_raises_witness :
    expandUrl "https://www.tiktok.com/@a/video/1" (.ok "x") =
      ⟨"https://www.tiktok.com/@a/video/1", false⟩ ∧
    (expandUrl "https://vm.tiktok.com/abc" (.error ())).result =
      "https://vm.tiktok.com/abc" :=
  ⟨(C4_expand_never_raises _ _).1 (by decide),
   (C4_expand_never_raises _ _).2 () rfl⟩

theorem takeWhile_all {p : Char → Bool} {w : List Char}
    (h : ∀ c ∈ w, p c = true) : w.takeWhile p = w := by
  induction w with
  | nil => rfl
  | cons c rest ih =>
    rw [List.takeWhile_cons, if_pos (h c (List.mem_cons_self c rest))]
    rw [ih (fun c2 hc2 => h c2 (List.mem_cons_of_mem c hc2))]

theorem takeWhile_append_stop {p : Char → Bool} {w t : List Char} {c : Char}
    (hw : ∀ x ∈ w, p x = true) (hc : p c = false) :
    (w ++ c :: t).takeWhile p = w := by
  induction w with
  | nil => simpa [List.takeWhile_cons] using hc
  | cons x rest ih =>
    rw [List.cons_append, List.takeWhile_cons,
      if_pos (hw x (List.mem_cons_self x rest))]
    rw [ih (fun y hy => hw y (List.mem_cons_of_mem x hy))]

theorem hashtagScan_nil (fuel : Nat) : hashtagScan fuel [] = [] := by
  cases fuel <;> rfl

theorem hashtagScan_congr (fuel1 : Nat) :
    ∀ (fuel2 : Nat) (s : List Char), s.length ≤ fuel1 → s.length ≤ fuel2 →
      hashtagScan fuel1 s = hashtagScan fuel2 s := by
  induction fuel1 with
  | zero =>
    intro fuel2 s h1 _
    have hs : s = [] := List.length_eq_zero.mp (by omega)
    subst hs
    rw [hashtagScan_nil, hashtagScan_nil]
  | succ fuel1 ih =>
    intro fuel2 s h1 h2
    match s with
    | [] => rw [hashtagScan_nil, hashtagScan_nil]
    | c :: rest =>
      match fuel2, h2 with
      | fuel2 + 1, h2 =>
        simp only [hashtagScan]
        rw [List.length_cons] at h1 h2
        by_cases hc : c = '#'
        · rw [if_pos hc, if_pos hc]
          by_cases hrun : (rest.takeWhile isHashtagChar).isEmpty
          · rw [if_pos hrun, if_pos hrun]
            exact ih fuel2 rest (by omega) (by omega)
          · rw [if_neg hrun, if_neg hrun]
            have hdl : (rest.drop (rest.takeWhile isHashtagChar).length).length ≤
                rest.length := by
              rw [List.length_drop]; omega
            rw [ih fuel2 (rest.drop (rest.takeWhile isHashtagChar).length)
              (by omega) (by omega)]
        · rw [if_neg hc, if_neg hc]
          exact ih fuel2 rest (by omega) (by omega)

/-- Title text consisting of the given hashtag words, `#`-marked and
space-separated. -/
def tagText : List (List Char) → List Char
  | [] => []
  | [w] => '#' :: w
  | w :: rest => '#' :: (w ++ ' ' :: tagText rest)

/-- C2 counterexample: a title repeating a hashtag produces a hashtags
list with a duplicate, refuting the no-duplicates invariant. -/
theorem C2_hashtags_duplicate_counterexample :
    extractHashtags "#fun #fun" = ["#fun", "#fun"] ∧
    ¬ (extractHashtags "#fun #fun").Nodup := by
  constructor
  · decide
  · decide

/-- C2 amended: the hashtag-extraction step returns one entry per hashtag
occurrence of the title, in order, duplicates included: on a title that is
a `#`-marked, space-separated sequence of hashtag words it returns exactly
that sequence, so the hashtags list of a record is duplicate-free only
when the title does not repeat a hashtag. -/
theorem C2_hashtags_occurrences_in_order (ws : List (List Char))
    (h : ∀ w ∈ ws, ¬ w = [] ∧ ∀ c ∈ w, isHashtagChar c = true) :
    extractHashtags ⟨tagText ws⟩ = ws.map (fun w => ⟨'#' :: w⟩) := by
  induction ws with
  | nil => rfl
  | cons w rest ih =>
    obtain ⟨hne, hcls⟩ := h w (List.mem_cons_self w rest)
    have hrest := fun x hx => h x (List.mem_cons_of_mem w hx)
    match rest with
    | [] =>
      show hashtagScan ('#' :: w).length ('#' :: w) = [⟨'#' :: w⟩]
      rw [List.length_cons]
      simp only [hashtagScan, if_pos rfl]
      rw [takeWhile_all hcls]
      rw [if_neg (fun hemp => hne (List.isEmpty_iff.mp hemp))]
      rw [List.drop_length, hashtagScan_nil]
      simp
    | r :: rs =>
      show hashtagScan (tagText (w :: r :: rs)).length (tagText (w :: r :: rs)) = _
      have hTT : tagText (w :: r :: rs) = '#' :: (w ++ ' ' :: tagText (r :: rs)) := rfl
      rw [hTT, List.length_cons]
      simp only [hashtagScan, if_pos rfl]
      rw [takeWhile_append_stop hcls (by decide)]
      rw [if_neg (fun hemp => hne (List.isEmpty_iff.mp hemp))]
      rw [List.drop_left]
      have hlen : (w ++ ' ' :: tagText (r :: rs)).length =
          w.length + (tagText (r :: rs)).length + 1 := by
        rw [List.length_append, List.length_cons]; omega
      rw [hlen]
      have hstep : hashtagScan (w.length + (tagText (r :: rs)).length + 1)
          (' ' :: tagText (r :: rs)) =
          hashtagScan (w.length + (tagText (r :: rs)).length) (tagText (r :: rs)) := by
        simp only [hashtagScan]
        rw [if_neg (by decide)]
      rw [hstep]
      rw [hashtagScan_congr _ (tagText (r :: rs)).length (tagText (r :: rs))
        (by omega) (Nat.le_refl _)]
      rw [List.map_cons]
      exact congrArg _ (ih hrest)

/-- C2 amended witness: the duplicated two-word title extracts to the
duplicated two-element list. -/
theorem C2_hashtags_occurrences_in_order_witness :
    extractHashtags ⟨tagText [['f', 'u', 'n'], ['f', 'u', 'n']]⟩ =
      [⟨['#', 'f', 'u', 'n']⟩, ⟨['#', 'f', 'u', 'n']⟩] :=
  C2_hashtags_occurrences_in_order [['f', 'u', 'n'], ['f', 'u', 'n']] (by decide)

theorem folderCond_false (s : TikTokerSettings) (v : Vault)
    (hfolder : s.outputFolder = "" ∨ vaultGet v s.outputFolder = true) :
    ¬ (¬ s.outputFolder = "" ∧ vaultGet v s.outputFolder = false) := by
  rcases hfolder with h | h
  · exact fun hc => hc.1 h
  · intro hc
    rw [h] at hc
    exact Bool.noConfusion hc.2

/-- C5: in batch mode a colliding target path yields the duplicate-pending
outcome at once: the returned object is `success: false, duplicate: true`
with the rendered name and title, the vault is untouched, and no prompt is
shown. -/
theorem C5_batch_duplicate_pending (s : TikTokerSettings) (data : TikTokData)
    (v : Vault) (promptAnswer : DupAction) (folderOk : Bool)
    (createOk : String → Bool) (deleteOk : Bool) (now : Nat)
    (hfolder : s.outputFolder = "" ∨ vaultGet v s.outputFolder = true)
    (hexist : vaultGet v (notePath s.outputFolder (generateFileName s data now)) = true) :
    createTikTokNote s data true v promptAnswer folderOk createOk deleteOk now =
      .ok { outcome := { success := false, duplicate := true,
                         fileName := some (generateFileName s data now),
                         noteTitle := some (generateNoteTitle s data now) },
            vault := v, promptShown := false } := by
  unfold createTikTokNote
  dsimp only
  rw [if_neg (folderCond_false s v hfolder)]
  dsimp only
  rw [if_pos hexist]
  rfl

/-- C5 witness: a collision in a concrete vault under the default settings
in batch mode. -/
theorem C5_batch_duplicate_pending_witness :
    createTikTokNote DEFAULT_SETTINGS
      { author := "abc", description := "Hi", hashtags := [], url := "u",
        expandedUrl := "u", embedHtml := "e", videoId := some "1",
        createdDate := "2024-01-01", postedDate := "2024-01-01",
        oembedFailed := false }
      true
      ⟨["TikToks"], [("TikToks/TikTok by abc on Hi.md", "old")]⟩
      .replace true (fun _ => true) true 0 =
      .ok { outcome := { success := false, duplicate := true,
                         fileName := some "TikTok by abc on Hi",
                         noteTitle := some "2024-01-01 Tiktok on Hi by abc" },
            vault := ⟨["TikToks"], [("TikToks/TikTok by abc on Hi.md", "old")]⟩,
            promptShown := false } := by
  have h := C5_batch_duplicate_pending DEFAULT_SETTINGS
    { author := "abc", description := "Hi", hashtags := [], url := "u",
      expandedUrl := "u", embedHtml := "e", videoId := some "1",
      createdDate := "2024-01-01", postedDate := "2024-01-01",
      oembedFailed := false }
    ⟨["TikToks"], [("TikToks/TikTok by abc on Hi.md", "old")]⟩
    .replace true (fun _ => true) true 0
    (Or.inr (by decide)) (by decide)
  rw [h]
  rfl

theorem probeGo_finds (v : Vault) (fp fn : String) :
    ∀ (fuel c n : Nat), c ≤ n → n < c + fuel →
      (∀ k, c ≤ k → k < n → vaultGet v (notePath fp (fn ++ "-" ++ natDec k)) = true) →
      vaultGet v (notePath fp (fn ++ "-" ++ natDec n)) = false →
      probeGo v fp fn fuel c = some n := by
  intro fuel
  induction fuel with
  | zero => intro c n h1 h2 _ _; omega
  | succ fuel ih =>
    intro c n h1 h2 hbusy hfree
    by_cases hc : c = n
    · subst hc
      simp only [probeGo]
      rw [if_neg (by rw [hfree]; exact Bool.noConfusion)]
    · have hcn : c < n := by omega
      simp only [probeGo]
      rw [if_pos (hbusy c (Nat.le_refl c) hcn)]
      exact ih (c + 1) n (by omega) (by omega)
        (fun k hk1 hk2 => hbusy k (by omega) hk2) hfree

/-- Pigeonhole bound: when the suffixed paths `1..m` are all occupied, `m`
is at most the number of vault entries (the paths are pairwise
distinct). -/
theorem vaultOccupied_le (v : Vault) (fp fn : String) (m : Nat)
    (hocc : ∀ k, 1 ≤ k → k < 1 + m →
      vaultGet v (notePath fp (fn ++ "-" ++ natDec k)) = true) :
    m ≤ v.files.length + v.folders.length := by
  have hsub : (List.range' 1 m).map
      (fun k => notePath fp (fn ++ "-" ++ natDec k)) ⊆
      v.files.map Prod.fst ++ v.folders := by
    intro p hp
    rw [List.mem_map] at hp
    obtain ⟨k, hk, rfl⟩ := hp
    rw [List.mem_range'] at hk
    obtain ⟨i, hi, hk⟩ := hk
    exact vaultGet_mem v _ (hocc k (by omega) (by omega))
  have hnodup : ((List.range' 1 m).map
      (fun k => notePath fp (fn ++ "-" ++ natDec k))).Nodup :=
    (List.nodup_range' 1 m 1 Nat.one_pos).map
      (fun a b hab => notePath_suffix_inj fp fn a b hab)
  have hlen := (hnodup.subperm hsub).length_le
  rw [List.length_map, List.length_range', List.length_append,
    List.length_map] at hlen
  omega

/-- C6: in single mode with the `duplicate` resolution, when the suffixed
paths `-1 .. -(n-1)` are occupied and `-n` is the first free one, the note
is created exactly at the `-n` path: the vault afterwards is the old file
list plus that one new file (so no existing file is overwritten or
deleted), and the outcome is `created` carrying the base name. -/
theorem C6_duplicate_suffix_probe (s : TikTokerSettings) (data : TikTokData)
    (v : Vault) (folderOk : Bool) (createOk : String → Bool) (deleteOk : Bool)
    (now : Nat) (n : Nat)
    (hfolder : s.outputFolder = "" ∨ vaultGet v s.outputFolder = true)
    (hexist : vaultGet v (notePath s.outputFolder (generateFileName s data now)) = true)
    (h1 : 1 ≤ n)
    (hbusy : ∀ k, 1 ≤ k → k < n →
      vaultGet v (notePath s.outputFolder
        (generateFileName s data now ++ "-" ++ natDec k)) = true)
    (hfree : vaultGet v (notePath s.outputFolder
      (generateFileName s data now ++ "-" ++ natDec n)) = false)
    (hcreate : createOk (notePath s.outputFolder
      (generateFileName s data now ++ "-" ++ natDec n)) = true) :
    createTikTokNote s data false v .duplicate folderOk createOk deleteOk now =
      .ok { outcome := { success := true,
                         fileName := some (generateFileName s data now),
                         noteTitle := some (generateNoteTitle s data now) },
            vault := { v with files := v.files ++
              [(notePath s.outputFolder
                  (generateFileName s data now ++ "-" ++ natDec n),
                generateNoteContent s data now)] },
            promptShown := true } := by
  have hle : n ≤ v.files.length + v.folders.length + 1 := by
    have := vaultOccupied_le v s.outputFolder (generateFileName s data now)
      (n - 1) (fun k hk1 hk2 => hbusy k hk1 (by omega))
    omega
  have hprobe : probeGo v s.outputFolder (generateFileName s data now)
      (v.files.length + v.folders.length + 1) 1 = some n :=
    probeGo_finds v s.outputFolder (generateFileName s data now)
      (v.files.length + v.folders.length + 1) 1 n h1 (by omega)
      (fun k hk1 hk2 => hbusy k hk1 hk2) hfree
  unfold createTikTokNote
  dsimp only
  rw [if_neg (folderCond_false s v hfolder)]
  dsimp only
  rw [if_pos hexist]
  rw [if_neg (by decide : ¬ (false = true))]
  split
  · next heq =>
    exact absurd heq (probeGo_ne_none v s.outputFolder (generateFileName s data now))
  · next n2 heq =>
    rw [hprobe] at heq
    have hn : n = n2 := Option.some.inj heq
    subst hn
    rw [if_pos hcreate]
    rfl

/-- C6 witness: with `foo.md` and `foo-1.md` occupied, the note is created
at `foo-2.md` and both existing files survive. -/
theorem C6_duplicate_suffix_probe_witness :
    createTikTokNote DEFAULT_SETTINGS
      { author := "abc", description := "Hi", hashtags := [], url := "u",
        expandedUrl := "u", embedHtml := "e", videoId := some "1",
        createdDate := "2024-01-01", postedDate := "2024-01-01",
        oembedFailed := false }
      false
      ⟨["TikToks"], [("TikToks/TikTok by abc on Hi.md", "a"),
                     ("TikToks/TikTok by abc on Hi-1.md", "b")]⟩
      .duplicate true (fun _ => true) true 0 =
      .ok { outcome := { success := true,
                         fileName := some "TikTok by abc on Hi",
                         noteTitle := some "2024-01-01 Tiktok on Hi by abc" },
            vault := ⟨["TikToks"],
              [("TikToks/TikTok by abc on Hi.md", "a"),
               ("TikToks/TikTok by abc on Hi-1.md", "b"),
               ("TikToks/TikTok by abc on Hi-2.md",
                generateNoteContent DEFAULT_SETTINGS
                  { author := "abc", description := "Hi", hashtags := [],
                    url := "u", expandedUrl := "u", embedHtml := "e",
                    videoId := some "1", createdDate := "2024-01-01",
                    postedDate := "2024-01-01", oembedFailed := false } 0)]⟩,
            promptShown := true } := by
  have h := C6_duplicate_suffix_probe DEFAULT_SETTINGS
    { author := "abc", description := "Hi", hashtags := [], url := "u",
      expandedUrl := "u", embedHtml := "e", videoId := some "1",
      createdDate := "2024-01-01", postedDate := "2024-01-01",
      oembedFailed := false }
    ⟨["TikToks"], [("TikToks/TikTok by abc on Hi.md", "a"),
                   ("TikToks/TikTok by abc on Hi-1.md", "b")]⟩
    true (fun _ => true) true 0 2
    (Or.inr (by decide)) (by decide) (by decide)
    (by decide) (by decide) (by decide)
  rw [h]
  rfl

theorem vaultGet_of_file_mem (v : Vault) (p : String)
    (h : p ∈ v.files.map Prod.fst) : vaultGet v p = true := by
  unfold vaultGet
  rw [List.mem_map] at h
  obtain ⟨f, hf, he⟩ := h
  rw [Bool.or_eq_true, List.any_eq_true]
  exact Or.inl ⟨f, hf, by simpa using he⟩

theorem vaultDelete_get (v : Vault) (p : String) :
    vaultGet (vaultDelete v p) p = false := by
  unfold vaultGet vaultDelete
  rw [Bool.or_eq_false_iff]
  constructor
  · rw [List.any_eq_false]
    intro f hf
    rw [List.mem_filter] at hf
    simpa using hf.2
  · rw [List.any_eq_false]
    intro q hq
    rw [List.mem_filter] at hq
    simpa using hq.2

theorem filter_erase_length_lt (l : List (String × String)) (p : String)
    (h : p ∈ l.map Prod.fst) :
    (l.filter (fun f => ¬ f.1 = p)).length < l.length := by
  induction l with
  | nil => simp at h
  | cons f rest ih =>
    rw [List.map_cons, List.mem_cons] at h
    by_cases hf : f.1 = p
    · have hfilter : (f :: rest).filter (fun g => ¬ g.1 = p) =
          rest.filter (fun g => ¬ g.1 = p) := by
        rw [List.filter_cons]
        rw [if_neg (by simp [hf])]
      rw [hfilter, List.length_cons]
      have := List.length_filter_le (fun g => ¬ g.1 = p) rest
      omega
    · have hp : p ∈ rest.map Prod.fst := by
        rcases h with h | h
        · exact absurd h.symm hf
        · exact h
      have hfilter : (f :: rest).filter (fun g => ¬ g.1 = p) =
          f :: rest.filter (fun g => ¬ g.1 = p) := by
        rw [List.filter_cons]
        rw [if_pos (by simp [hf])]
      rw [hfilter, List.length_cons, List.length_cons]
      exact Nat.succ_lt_succ (ih hp)

/-- C10: the single-mode `replace` resolution is not atomic: the existing
note is deleted first, and when the follow-up create fails the call
reports a bare failure while the vault has already lost the original file
-- the target path is gone and the file count strictly dropped, with no
restoration. -/
theorem C10_replace_delete_before_create (s : TikTokerSettings)
    (data : TikTokData) (v : Vault) (folderOk : Bool)
    (createOk : String → Bool) (now : Nat)
    (hfolder : s.outputFolder = "" ∨ vaultGet v s.outputFolder = true)
    (hfile : notePath s.outputFolder (generateFileName s data now) ∈
      v.files.map Prod.fst)
    (hcreate : createOk (notePath s.outputFolder (generateFileName s data now)) = false) :
    createTikTokNote s data false v .replace folderOk createOk true now =
      .ok { outcome := { success := false },
            vault := vaultDelete v (notePath s.outputFolder (generateFileName s data now)),
            promptShown := true } ∧
    vaultGet (vaultDelete v (notePath s.outputFolder (generateFileName s data now)))
      (notePath s.outputFolder (generateFileName s data now)) = false ∧
    (vaultDelete v (notePath s.outputFolder (generateFileName s data now))).files.length <
      v.files.length := by
  refine ⟨?_, vaultDelete_get v _, filter_erase_length_lt v.files _ hfile⟩
  unfold createTikTokNote
  dsimp only
  rw [if_neg (folderCond_false s v hfolder)]
  dsimp only
  rw [if_pos (vaultGet_of_file_mem v _ hfile)]
  rw [if_neg (by decide : ¬ (false = true))]
  rw [if_pos (rfl : (true : Bool) = true)]
  rw [if_neg (by rw [hcreate]; exact Bool.noConfusion)]

/-- C10 witness: deleting then failing to create loses the original note. -/
theorem C10_replace_delete_before_create_witness :
    createTikTokNote DEFAULT_SETTINGS
      { author := "abc", description := "Hi", hashtags := [], url := "u",
        expandedUrl := "u", embedHtml := "e", videoId := some "1",
        createdDate := "2024-01-01", postedDate := "2024-01-01",
        oembedFailed := false }
      false
      ⟨["TikToks"], [("TikToks/TikTok by abc on Hi.md", "old")]⟩
      .replace true (fun _ => false) true 0 =
      .ok { outcome := { success := false },
            vault := vaultDelete ⟨["TikToks"], [("TikToks/TikTok by abc on Hi.md", "old")]⟩
              "TikToks/TikTok by abc on Hi.md",
            promptShown := true } ∧
    vaultGet (vaultDelete ⟨["TikToks"], [("TikToks/TikTok by abc on Hi.md", "old")]⟩
        "TikToks/TikTok by abc on Hi.md")
      "TikToks/TikTok by abc on Hi.md" = false := by
  have h := C10_replace_delete_before_create DEFAULT_SETTINGS
    { author := "abc", description := "Hi", hashtags := [], url := "u",
      expandedUrl := "u", embedHtml := "e", videoId := some "1",
      createdDate := "2024-01-01", postedDate := "2024-01-01",
      oembedFailed := false }
    ⟨["TikToks"], [("TikToks/TikTok by abc on Hi.md", "old")]⟩
    true (fun _ => false) 0
    (Or.inr (by decide)) (by decide) rfl
  exact ⟨h.1, h.2.1⟩

/-- C7 counterexample: the identifier whose shifted value is exactly the
epoch second of 2010-01-01 decodes into the claimed calendar range (year
2010, within 2010 through 2030 inclusive), yet the strict guard rejects it
and the resolver falls through to the current-date fallback instead of
accepting the decoded date. -/
theorem C7_decode_boundary_counterexample :
    strToNat "5421554397609984000" / 2 ^ 32 = 1262304000 ∧
    (civilFromUnix 1262304000).1 = 2010 ∧
    extractTikTokPostedDate (some "5421554397609984000") (fun _ => none) 0 =
      "1970-01-01" ∧
    ¬ extractTikTokPostedDate (some "5421554397609984000") (fun _ => none) 0 =
      dateStr 1262304000 := by
  refine ⟨by decide, by decide, by decide, by decide⟩

/-- C7 amended: for identifiers of at least 19 characters (shorter ones
skip the decode entirely), the shifted value is accepted exactly when it
lies strictly between the epoch seconds of 2010-01-01 and 2030-01-01
(both guard comparisons are strict, so the two boundary instants are
rejected); on rejection the resolver returns the last-modified lookup
issued with the fixed 5000 ms timeout when it parses, else the current
date. -/
theorem C7_decode_strict_bounds (id : String) (lm : Nat → Option Nat)
    (now : Nat) (hlen : 19 ≤ id.length)
    (hneq : ¬ dateStr (strToNat id / 2 ^ 32) =
      (match lm lastModifiedTimeoutMs with
       | some t => dateStr t
       | none => dateStr now)) :
    (extractTikTokPostedDate (some id) lm now = dateStr (strToNat id / 2 ^ 32) ↔
      tiktokEpochLower < strToNat id / 2 ^ 32 ∧
        strToNat id / 2 ^ 32 < tiktokEpochUpper) ∧
    (¬ (tiktokEpochLower < strToNat id / 2 ^ 32 ∧
        strToNat id / 2 ^ 32 < tiktokEpochUpper) →
      extractTikTokPostedDate (some id) lm now =
        match lm lastModifiedTimeoutMs with
        | some t => dateStr t
        | none => dateStr now) := by
  unfold extractTikTokPostedDate
  dsimp only
  rw [if_pos hlen]
  by_cases hc : tiktokEpochLower < strToNat id / 2 ^ 32 ∧
      strToNat id / 2 ^ 32 < tiktokEpochUpper
  · rw [if_pos hc]
    exact ⟨⟨fun _ => hc, fun _ => rfl⟩, fun hn => absurd hc hn⟩
  · rw [if_neg hc]
    exact ⟨⟨fun he => absurd he.symm hneq, fun hcc => absurd hcc hc⟩, fun _ => rfl⟩

/-- C7 amended witness: one second past the lower bound is accepted and
decodes to 2010-01-01. -/
theorem C7_decode_strict_bounds_witness :
    extractTikTokPostedDate (some "5421554401904951296") (fun _ => none) 0 =
      dateStr 1262304001 :=
  (C7_decode_strict_bounds "5421554401904951296" (fun _ => none) 0
    (by decide) (by decide)).1.mpr (by decide)

theorem mem_of_mem_dedupFirstGo (l : List String) :
    ∀ (seen : List String) (x : String), x ∈ dedupFirstGo seen l → x ∈ l := by
  induction l with
  | nil => intro seen x h; exact absurd h (List.not_mem_nil x)
  | cons y rest ih =>
    intro seen x h
    unfold dedupFirstGo at h
    by_cases hy : y ∈ seen
    · rw [if_pos hy] at h
      exact List.mem_cons_of_mem y (ih seen x h)
    · rw [if_neg hy] at h
      rcases List.mem_cons.mp h with h | h
      · exact h ▸ List.mem_cons_self y rest
      · exact List.mem_cons_of_mem y (ih (seen ++ [y]) x h)

theorem not_seen_of_mem_dedupFirstGo (l : List String) :
    ∀ (seen : List String) (x : String), x ∈ dedupFirstGo seen l → x ∉ seen := by
  induction l with
  | nil => intro seen x h; exact absurd h (List.not_mem_nil x)
  | cons y rest ih =>
    intro seen x h
    unfold dedupFirstGo at h
    by_cases hy : y ∈ seen
    · rw [if_pos hy] at h
      exact ih seen x h
    · rw [if_neg hy] at h
      rcases List.mem_cons.mp h with h | h
      · exact h ▸ hy
      · intro hs
        exact ih (seen ++ [y]) x h (List.mem_append_left [y] hs)

theorem nodup_dedupFirstGo (l : List String) :
    ∀ (seen : List String), (dedupFirstGo seen l).Nodup := by
  induction l with
  | nil => intro seen; exact List.nodup_nil
  | cons y rest ih =>
    intro seen
    unfold dedupFirstGo
    by_cases hy : y ∈ seen
    · rw [if_pos hy]; exact ih seen
    · rw [if_neg hy]
      refine List.nodup_cons.mpr ⟨?_, ih (seen ++ [y])⟩
      intro hmem
      exact not_seen_of_mem_dedupFirstGo rest (seen ++ [y]) y hmem
        (List.mem_append_right seen (List.mem_singleton_self y))

theorem pairwise_dedupFirstGo (l : List String) :
    ∀ (seen : List String),
      (dedupFirstGo seen l).Pairwise (fun a b => l.indexOf a < l.indexOf b) := by
  induction l with
  | nil => intro seen; exact List.Pairwise.nil
  | cons y rest ih =>
    intro seen
    unfold dedupFirstGo
    by_cases hy : y ∈ seen
    · rw [if_pos hy]
      refine (ih seen).imp_of_mem ?_
      intro a b ha hb hlt
      have hay : ¬ a = y := fun he =>
        not_seen_of_mem_dedupFirstGo rest seen a ha (he ▸ hy)
      have hby : ¬ b = y := fun he =>
        not_seen_of_mem_dedupFirstGo rest seen b hb (he ▸ hy)
      rw [List.indexOf_cons_ne rest (fun he => hay he.symm),
        List.indexOf_cons_ne rest (fun he => hby he.symm)]
      omega
    · rw [if_neg hy]
      refine List.pairwise_cons.mpr ⟨?_, ?_⟩
      · intro b hb
        have hby : ¬ b = y := fun he =>
          not_seen_of_mem_dedupFirstGo rest (seen ++ [y]) b hb
            (by rw [he]; exact List.mem_append_right seen (List.mem_singleton_self y))
        rw [List.indexOf_cons_self, List.indexOf_cons_ne rest (fun he => hby he.symm)]
        omega
      · refine (ih (seen ++ [y])).imp_of_mem ?_
        intro a b ha hb hlt
        have hay : ¬ a = y := fun he =>
          not_seen_of_mem_dedupFirstGo rest (seen ++ [y]) a ha
            (by rw [he]; exact List.mem_append_right seen (List.mem_singleton_self y))
        have hby : ¬ b = y := fun he =>
          not_seen_of_mem_dedupFirstGo rest (seen ++ [y]) b hb
            (by rw [he]; exact List.mem_append_right seen (List.mem_singleton_self y))
        rw [List.indexOf_cons_ne rest (fun he => hay he.symm),
          List.indexOf_cons_ne rest (fun he => hby he.symm)]
        omega

/-- C8: URL discovery is deterministic (it is a pure function of the
text), its result contains no duplicate strings, and its entries are
ordered by the position of their first occurrence among the scanner's
matches, which the scanner emits in textual order. -/
theorem C8_discovery_deterministic_nodup_ordered (t : String) :
    extractTikTokUrls t = extractTikTokUrls t ∧
    (extractTikTokUrls t).Nodup ∧
    (extractTikTokUrls t).Pairwise (fun a b =>
      (urlScanGo t.data.length t.data).indexOf a <
        (urlScanGo t.data.length t.data).indexOf b) := by
  refine ⟨rfl, ?_, ?_⟩
  · exact (nodup_dedupFirstGo (urlScanGo t.data.length t.data) []).filter _
  · exact (pairwise_dedupFirstGo (urlScanGo t.data.length t.data) []).filter _

/-- C9: with bulk processing disabled, a clipboard containing two or more
valid URLs dispatches to single processing of exactly the first discovered
URL: the action names no other URL, so the rest produce no notice, no
result entry and no write attempt. -/
theorem C9_bulk_disabled_processes_first_only (s : TikTokerSettings)
    (text u r : String) (rs : List String)
    (hbulk : s.enableBulkProcessing = false)
    (hurls : extractTikTokUrls text = u :: r :: rs) :
    processTikTokFromClipboard s (.ok text) = .singleProcess u := by
  unfold processTikTokFromClipboard
  dsimp only
  rw [hurls]
  have hmodal : shouldShowBulkModal s (u :: r :: rs) = false := by
    unfold shouldShowBulkModal
    rw [hbulk]
    rw [if_pos (fun h => Bool.noConfusion h)]
  dsimp only
  rw [hmodal]
  rfl

/-- C9 witness: two URLs on the clipboard, bulk disabled, only the first
is processed. -/
theorem C9_bulk_disabled_processes_first_only_witness :
    processTikTokFromClipboard
      { DEFAULT_SETTINGS with enableBulkProcessing := false }
      (.ok "https://www.tiktok.com/@a/video/1 https://www.tiktok.com/@b/video/2") =
      .singleProcess "https://www.tiktok.com/@a/video/1" :=
  C9_bulk_disabled_processes_first_only
    { DEFAULT_SETTINGS with enableBulkProcessing := false }
    "https://www.tiktok.com/@a/video/1 https://www.tiktok.com/@b/video/2"
    "https://www.tiktok.com/@a/video/1" "https://www.tiktok.com/@b/video/2" []
    rfl (by decide)

/-- Validity of every date `extractTikTokPostedDate` can return, given sane
bounds on the clock and on a parsed last-modified header. -/
theorem extractTikTokPostedDate_valid (videoId : Option String)
    (lm : Nat → Option Nat) (now : Nat)
    (hnow : now < 250000000000)
    (hlm : ∀ t, lm lastModifiedTimeoutMs = some t → t < 250000000000) :
    isValidISODate (extractTikTokPostedDate videoId lm now) = true := by
  have hfb : isValidISODate
      (match lm lastModifiedTimeoutMs with
       | some t => dateStr t
       | none => dateStr now) = true := by
    cases hml : lm lastModifiedTimeoutMs with
    | some t => exact dateStr_valid t (hlm t hml)
    | none => exact dateStr_valid now hnow
  unfold extractTikTokPostedDate
  dsimp only
  cases videoId with
  | none => exact hfb
  | some id =>
    dsimp only
    by_cases hlen : 19 ≤ id.length
    · rw [if_pos hlen]
      by_cases hc : tiktokEpochLower < strToNat id / 2 ^ 32 ∧
          strToNat id / 2 ^ 32 < tiktokEpochUpper
      · rw [if_pos hc]
        refine dateStr_valid _ ?_
        have := hc.2
        unfold tiktokEpochUpper at this
        omega
      · rw [if_neg hc]
        exact hfb
    · rw [if_neg hlen]
      exact hfb

theorem handlePrivateVideo_none_iff (s : TikTokerSettings) (url : String)
    (videoId : Option String) (lm : Nat → Option Nat) (now : Nat) :
    handlePrivateVideo s url videoId lm now = none ↔
      s.handlePrivateVideos = .skip := by
  unfold handlePrivateVideo
  dsimp only
  cases hpv : s.handlePrivateVideos <;> simp [hpv]

theorem handlePrivateVideo_valid (s : TikTokerSettings) (url : String)
    (videoId : Option String) (lm : Nat → Option Nat) (now : Nat)
    (r : TikTokData)
    (hnow : now < 250000000000)
    (hlm : ∀ t, lm lastModifiedTimeoutMs = some t → t < 250000000000)
    (h : handlePrivateVideo s url videoId lm now = some r) :
    isValidISODate r.createdDate = true ∧ isValidISODate r.postedDate = true := by
  unfold handlePrivateVideo at h
  dsimp only at h
  cases hpv : s.handlePrivateVideos <;> rw [hpv] at h
  · have hr := Option.some.inj h
    subst hr
    exact ⟨dateStr_valid now hnow,
      extractTikTokPostedDate_valid videoId lm now hnow hlm⟩
  · exact absurd h (by simp)
  · have hr := Option.some.inj h
    subst hr
    exact ⟨dateStr_valid now hnow,
      extractTikTokPostedDate_valid videoId lm now hnow hlm⟩

theorem handleSlideshowUrl_valid (url : String) (videoId : Option String)
    (lm : Nat → Option Nat) (now : Nat)
    (hnow : now < 250000000000)
    (hlm : ∀ t, lm lastModifiedTimeoutMs = some t → t < 250000000000) :
    isValidISODate (handleSlideshowUrl url videoId lm now).createdDate = true ∧
    isValidISODate (handleSlideshowUrl url videoId lm now).postedDate = true :=
  ⟨dateStr_valid now hnow, extractTikTokPostedDate_valid videoId lm now hnow hlm⟩

theorem fetchTikTokDataDesktop_spec (s : TikTokerSettings) (url : String)
    (net : NetOutcomes) (now : Nat)
    (hnow : now < 250000000000)
    (hlm : ∀ t, net.lastModified lastModifiedTimeoutMs = some t →
      t < 250000000000) :
    (∀ r, fetchTikTokDataDesktop s url net now = some r →
      isValidISODate r.createdDate = true ∧ isValidISODate r.postedDate = true) ∧
    (fetchTikTokDataDesktop s url net now = none →
      s.handlePrivateVideos = .skip) := by
  unfold fetchTikTokDataDesktop
  dsimp only
  by_cases hph : strContains url "/photo/" = true
  · rw [if_pos hph]
    constructor
    · intro r h
      have hr := Option.some.inj h
      subst hr
      exact handleSlideshowUrl_valid url _ net.lastModified now hnow hlm
    · intro h
      exact absurd h (by simp)
  · rw [if_neg hph]
    cases hoe : net.oembed with
    | ok od =>
      dsimp only
      constructor
      · intro r h
        have hr := Option.some.inj h
        subst hr
        exact ⟨dateStr_valid now hnow,
          extractTikTokPostedDate_valid _ net.lastModified now hnow hlm⟩
      · intro h
        exact absurd h (by simp)
    | error e =>
      dsimp only
      by_cases hpv : detectPrivateVideo e = true
      · rw [if_pos hpv]
        constructor
        · intro r h
          exact handlePrivateVideo_valid s url _ net.lastModified now r hnow hlm h
        · intro h
          exact (handlePrivateVideo_none_iff s url _ net.lastModified now).mp h
      · rw [if_neg hpv]
        by_cases hph2 : strContains url "/photo/" = true
        · rw [if_pos hph2]
          constructor
          · intro r h
            have hr := Option.some.inj h
            subst hr
            exact ⟨dateStr_valid now hnow,
              extractTikTokPostedDate_valid _ net.lastModified now hnow hlm⟩
          · intro h
            exact absurd h (by simp)
        · rw [if_neg hph2]
          constructor
          · intro r h
            have hr := Option.some.inj h
            subst hr
            exact ⟨dateStr_valid now hnow,
              extractTikTokPostedDate_valid _ net.lastModified now hnow hlm⟩
          · intro h
            exact absurd h (by simp)

theorem fetchTikTokDataMobile_spec (s : TikTokerSettings) (url : String)
    (net : NetOutcomes) (now : Nat)
    (hnow : now < 250000000000)
    (hlm : ∀ t, net.lastModified lastModifiedTimeoutMs = some t →
      t < 250000000000) :
    (∀ r, fetchTikTokDataMobile s url net now = some r →
      isValidISODate r.createdDate = true ∧ isValidISODate r.postedDate = true) ∧
    (fetchTikTokDataMobile s url net now = none →
      s.handlePrivateVideos = .skip) := by
  unfold fetchTikTokDataMobile
  dsimp only
  by_cases hph : strContains (expandUrl url net.expandHead).result "/photo/" = true
  · rw [if_pos hph]
    constructor
    · intro r h
      have hr := Option.some.inj h
      subst hr
      exact handleSlideshowUrl_valid _ _ net.lastModified now hnow hlm
    · intro h
      exact absurd h (by simp)
  · rw [if_neg hph]
    by_cases hpriv : strReplaceFirst (extractAuthorFromUrl
        (expandUrl url net.expandHead).result) "@" "" = "Unknown" ∨
        extractVideoId (expandUrl url net.expandHead).result = none
    · rw [if_pos hpriv]
      constructor
      · intro r h
        exact handlePrivateVideo_valid s _ _ net.lastModified now r hnow hlm h
      · intro h
        exact (handlePrivateVideo_none_iff s _ _ net.lastModified now).mp h
    · rw [if_neg hpriv]
      constructor
      · intro r h
        have hr := Option.some.inj h
        subst hr
        exact ⟨dateStr_valid now hnow,
          extractTikTokPostedDate_valid _ net.lastModified now hnow hlm⟩
      · intro h
        exact absurd h (by simp)

/-- C3: on both platform paths, whenever `fetchTikTokData` returns a
record its `createdDate` and `postedDate` are well-formed ISO calendar
dates -- under every combination of network outcomes, including total
failure -- and it returns no record only when the private-video policy is
`skip`.  The clock and any parsed last-modified header are assumed to lie
before the five-digit-year era, where `toISOString` itself leaves the
`YYYY-MM-DD` format. -/
theorem C3_resolver_totality (isMobile : Bool) (s : TikTokerSettings)
    (url : String) (net : NetOutcomes) (now : Nat)
    (hnow : now < 250000000000)
    (hlm : ∀ t, net.lastModified lastModifiedTimeoutMs = some t →
      t < 250000000000) :
    (∀ r, fetchTikTokData isMobile s url net now = some r →
      isValidISODate r.createdDate = true ∧ isValidISODate r.postedDate = true) ∧
    (fetchTikTokData isMobile s url net now = none →
      s.handlePrivateVideos = .skip) := by
  unfold fetchTikTokData
  cases isMobile with
  | true => exact fetchTikTokDataMobile_spec s url net now hnow hlm
  | false => exact fetchTikTokDataDesktop_spec s url net now hnow hlm

/-- C3 witness: with every network call failing and the clock at the
epoch, the desktop path still returns a record whose two dates are
well-formed. -/
theorem C3_resolver_totality_witness :
    ∃ r, fetchTikTokData false DEFAULT_SETTINGS
      "https://www.tiktok.com/@a/video/123"
      ⟨.error ⟨"network error", none⟩, .error (), fun _ => none⟩ 0 = some r ∧
      isValidISODate r.createdDate = true ∧ isValidISODate r.postedDate = true := by
  refine ⟨_, rfl, ?_⟩
  exact (C3_resolver_totality false DEFAULT_SETTINGS
    "https://www.tiktok.com/@a/video/123"
    ⟨.error ⟨"network error", none⟩, .error (), fun _ => none⟩ 0
    (by decide) (fun t h => Option.noConfusion h)).1 _ rfl
